import Mathlib

/-! Scrape orchestration core of the MikroTik exporter.

A shallow embedding of `collector/collector.go` (with `config/config.go` and
`collector/routes_collector.go`): device resolution through DNS SRV discovery,
session establishment with the two login handshakes, the per-device collector
pipeline and the scrape outcome samples.

Everything the Go code obtains from outside the process (dialling, the RouterOS
API client, the DNS client, the resolver configuration file, the clock) is an
oracle of a `World`, a deterministic transition system over an arbitrary state
type.  The embedded functions pass an explicit state that carries the world
state, the metric channel and a record of the calls that were made.

The goroutines that `Collect` launches are embedded action by action (`Work`):
a schedule says which goroutine performs its next call or send, so that calls
and sends of different devices interleave.  Run without interruption, the
goroutine of a device is the function `collectForDevice`.
-/

set_option maxRecDepth 100000

namespace Mikrotik

/-! ## MD5 (RFC 1321), the hash behind `crypto/md5` -/

namespace MD5

/-- Per-round left-rotation amounts of RFC 1321. -/
def shifts : List Nat :=
  [7, 12, 17, 22, 7, 12, 17, 22, 7, 12, 17, 22, 7, 12, 17, 22,
   5, 9, 14, 20, 5, 9, 14, 20, 5, 9, 14, 20, 5, 9, 14, 20,
   4, 11, 16, 23, 4, 11, 16, 23, 4, 11, 16, 23, 4, 11, 16, 23,
   6, 10, 15, 21, 6, 10, 15, 21, 6, 10, 15, 21, 6, 10, 15, 21]

/-- The sine table of RFC 1321: entry `i` is `floor (2^32 * |sin (i + 1)|)`. -/
def sineTable : List Nat :=
  [0xd76aa478, 0xe8c7b756, 0x242070db, 0xc1bdceee, 0xf57c0faf, 0x4787c62a, 0xa8304613, 0xfd469501,
   0x698098d8, 0x8b44f7af, 0xffff5bb1, 0x895cd7be, 0x6b901122, 0xfd987193, 0xa679438e, 0x49b40821,
   0xf61e2562, 0xc040b340, 0x265e5a51, 0xe9b6c7aa, 0xd62f105d, 0x02441453, 0xd8a1e681, 0xe7d3fbc8,
   0x21e1cde6, 0xc33707d6, 0xf4d50d87, 0x455a14ed, 0xa9e3e905, 0xfcefa3f8, 0x676f02d9, 0x8d2a4c8a,
   0xfffa3942, 0x8771f681, 0x6d9d6122, 0xfde5380c, 0xa4beea44, 0x4bdecfa9, 0xf6bb4b60, 0xbebfbc70,
   0x289b7ec6, 0xeaa127fa, 0xd4ef3085, 0x04881d05, 0xd9d4d039, 0xe6db99e5, 0x1fa27cf8, 0xc4ac5665,
   0xf4292244, 0x432aff97, 0xab9423a7, 0xfc93a039, 0x655b59c3, 0x8f0ccc92, 0xffeff47d, 0x85845dd1,
   0x6fa87e4f, 0xfe2ce6e0, 0xa3014314, 0x4e0811a1, 0xf7537e82, 0xbd3af235, 0x2ad7d2bb, 0xeb86d391]

/-- Two to the thirty-second: the modulus of `uint32` arithmetic. -/
def wordMod : Nat := 4294967296

/-- Bitwise complement of a 32-bit word. -/
def not32 (x : Nat) : Nat := (x % wordMod) ^^^ 4294967295

/-- Left rotation of a 32-bit word by `c` bits (`0 < c < 32`). -/
def rotl (x c : Nat) : Nat :=
  (((x % wordMod) <<< c) ||| ((x % wordMod) >>> (32 - c))) % wordMod

/-- The four chaining words `a, b, c, d`. -/
structure Chain where
  a : Nat
  b : Nat
  c : Nat
  d : Nat
deriving DecidableEq, Repr

/-- Initial chaining value. -/
def init : Chain := ⟨0x67452301, 0xefcdab89, 0x98badcfe, 0x10325476⟩

/-- The round function and the index of the message word used in operation `i`. -/
def mix (i : Nat) (s : Chain) : Nat × Nat :=
  if i < 16 then ((s.b &&& s.c) ||| (not32 s.b &&& s.d), i)
  else if i < 32 then ((s.d &&& s.b) ||| (not32 s.d &&& s.c), (5 * i + 1) % 16)
  else if i < 48 then (s.b ^^^ s.c ^^^ s.d, (3 * i + 5) % 16)
  else (s.c ^^^ (s.b ||| not32 s.d), (7 * i) % 16)

/-- Operation `i` of the 64 operations on one block with message words `m`. -/
def op (m : List Nat) (s : Chain) (i : Nat) : Chain :=
  let fg := mix i s
  let f := (fg.1 + s.a + sineTable.getD i 0 + m.getD fg.2 0) % wordMod
  ⟨s.d, (s.b + rotl f (shifts.getD i 0)) % wordMod, s.b, s.c⟩

/-- Little-endian 32-bit word starting at byte `4 * j` of a block. -/
def wordAt (blk : List Nat) (j : Nat) : Nat :=
  blk.getD (4 * j) 0 % 256 + (blk.getD (4 * j + 1) 0 % 256) * 256
    + (blk.getD (4 * j + 2) 0 % 256) * 65536 + (blk.getD (4 * j + 3) 0 % 256) * 16777216

/-- Compression of one 64-byte block into the chaining value. -/
def block (s : Chain) (blk : List Nat) : Chain :=
  let m := (List.range 16).map (wordAt blk)
  let t := (List.range 64).foldl (op m) s
  ⟨(s.a + t.a) % wordMod, (s.b + t.b) % wordMod, (s.c + t.c) % wordMod, (s.d + t.d) % wordMod⟩

/-- Compression of the first `n` 64-byte blocks of `msg`. -/
def blocks : Nat → Chain → List Nat → Chain
  | 0, s, _ => s
  | n + 1, s, msg => blocks n (block s (msg.take 64)) (msg.drop 64)

/-- Little-endian bytes of the low `8 * k` bits of `x`. -/
def leBytes : Nat → Nat → List Nat
  | 0, _ => []
  | k + 1, x => x % 256 :: leBytes k (x / 256)

/-- Padding: a `0x80` byte, zeros up to 56 modulo 64, then the bit length as a
64-bit little-endian integer. -/
def pad (msg : List Nat) : List Nat :=
  msg ++ [128] ++ List.replicate ((119 - msg.length % 64) % 64) 0
    ++ leBytes 8 ((8 * msg.length) % 18446744073709551616)

/-- The 16-byte MD5 digest of a byte sequence. -/
def sum (msg : List Nat) : List Nat :=
  let p := pad msg
  let s := blocks (p.length / 64) init p
  leBytes 4 s.a ++ leBytes 4 s.b ++ leBytes 4 s.c ++ leBytes 4 s.d

end MD5

/-! ## `hash.Hash`, `fmt.Sprintf` and `encoding/hex` -/

/-- Bytes of a Go string. -/
def stringBytes (s : String) : List Nat :=
  s.data.flatMap fun c => (String.utf8EncodeChar c).map UInt8.toNat

/-- The running hash returned by `md5.New`: the bytes written so far. -/
structure Digest where
  written : List Nat
deriving DecidableEq, Repr

/-- Go `md5.New`. -/
def md5New : Digest := ⟨[]⟩

/-- Go `Write` on a running hash: appends to the hashed data. -/
def Digest.Write (h : Digest) (p : List Nat) : Digest := ⟨h.written ++ p⟩

/-- Go `Sum`: appends the digest of the data written so far to `b`. -/
def Digest.Sum (h : Digest) (b : List Nat) : List Nat := b ++ MD5.sum h.written

/-- Lowercase hexadecimal digit of a value below 16. -/
def hexDigit (n : Nat) : Char :=
  "0123456789abcdef".data.getD (n % 16) '0'

/-- The verb `%x` of `fmt.Sprintf` on a byte slice: two lowercase digits per byte. -/
def fmtHex : List Nat → List Char
  | [] => []
  | b :: bs => hexDigit (b % 256 / 16) :: hexDigit (b % 16) :: fmtHex bs

/-- Go `challengeResponse` (collector.go, lines 316-322). -/
def challengeResponse (cha : List Nat) (password : String) : String :=
  let h := md5New
  let h := h.Write [0]
  let h := h.Write (stringBytes password)
  let h := h.Write cha
  "00" ++ String.mk (fmtHex (h.Sum []))

/-- Value of one ASCII hexadecimal digit, as in the reverse table of `encoding/hex`. -/
def fromHexChar (b : Nat) : Option Nat :=
  if 48 ≤ b ∧ b ≤ 57 then some (b - 48)
  else if 97 ≤ b ∧ b ≤ 102 then some (b - 97 + 10)
  else if 65 ≤ b ∧ b ≤ 70 then some (b - 65 + 10)
  else none

/-- The two errors of `encoding/hex`. -/
inductive HexError
  | invalidByte (b : Nat)
  | errLength
deriving DecidableEq, Repr

deriving instance DecidableEq for Except

/-- Go `hex.Decode` on the bytes of the input, two digits per output byte. -/
def hexDecode : List Nat → Except HexError (List Nat)
  | [] => .ok []
  | [p] => if fromHexChar p = none then .error (.invalidByte p) else .error .errLength
  | p :: q :: rest =>
    match fromHexChar p with
    | none => .error (.invalidByte p)
    | some a =>
      match fromHexChar q with
      | none => .error (.invalidByte q)
      | some b =>
        match hexDecode rest with
        | .error e => .error e
        | .ok out => .ok ((a * 16 + b) :: out)

/-- Go `hex.DecodeString`; only the error and, without error, the bytes are used. -/
def hexDecodeString (s : String) : Except HexError (List Nat) :=
  hexDecode (stringBytes s)

/-! ## Data model (`config/config.go`, `routeros`, `prometheus`, `dns`) -/

/-- Go `config.DnsServer`. -/
structure DnsServer where
  Address : String := ""
  Port : Int := 0
deriving DecidableEq, Repr

/-- Go `config.SrvRecord`. -/
structure SrvRecord where
  Record : String := ""
  Dns : DnsServer := {}
deriving DecidableEq, Repr

/-- Go `config.Device`. -/
structure Device where
  Name : String := ""
  Address : String := ""
  Srv : SrvRecord := {}
  User : String := ""
  Password : String := ""
  Port : String := ""
deriving DecidableEq, Repr

/-- Error values. `ext` stands for an error produced by a library call. -/
inductive Err
  | ext (msg : String)
  | noRet
  | invalidRet (cause : HexError)
deriving DecidableEq, Repr

/-- Go `proto.Sentence`: the key/value map of one reply sentence. -/
structure Sentence where
  Map : List (String × String) := []
deriving DecidableEq, Repr

/-- Go map index `m[k]`: the zero value when the key is absent. -/
def mapGet (m : List (String × String)) (k : String) : String :=
  (m.lookup k).getD ""

/-- Go `routeros.Reply`; `Done` is a pointer and may be nil. -/
structure Reply where
  Re : List Sentence := []
  Done : Option Sentence := none
deriving DecidableEq, Repr

/-- Go `routeros.Client`, identified by the connection it wraps. -/
structure Client where
  rwc : Nat
deriving DecidableEq, Repr

/-- A resource record of a DNS answer section: an SRV record or another type. -/
inductive RR
  | SRV (Target : String)
  | other (rrtype : Nat)
deriving DecidableEq, Repr

/-- Value of a metric: a duration converted by `Seconds()` (kept in
nanoseconds) or a numeric constant. -/
inductive Value
  | seconds (ns : Int)
  | const (n : Nat)
deriving DecidableEq, Repr

/-- A constant metric built by `prometheus.MustNewConstMetric`. -/
structure Metric where
  desc : String
  value : Value
  labels : List String
deriving DecidableEq, Repr

/-- One invocation of a collector: index in the pipeline, device and
connection it was given, the metrics it sent and the error it returned. -/
structure CollectCall where
  idx : Nat
  dev : Device
  conn : Nat
  sent : List Metric
  err : Option Err
deriving DecidableEq, Repr

/-- Record of the calls made to the outside. -/
inductive Event
  | dial (addr : String) (conn : Option Nat)
  | run (conn : Nat) (sentence : List String)
  | close (conn : Nat)
  | query (name : String) (server : String)
  | collect (call : CollectCall)
deriving DecidableEq, Repr

/-- How the process stops abnormally. -/
inductive Abort
  | panic
  | exit (code : Nat)
deriving DecidableEq, Repr

/-- Result of a Go function: it returns, or the process stops. -/
inductive Outcome (α : Type)
  | ret (a : α)
  | abort (how : Abort)
deriving DecidableEq, Repr

/-- The outside world as a deterministic transition system. -/
structure World (σ : Type) where
  /-- `net.DialTimeout("tcp", addr, timeout)`. -/
  dialTimeout : σ → String → Nat → σ × Except Err Nat
  /-- `tls.DialWithDialer` with `InsecureSkipVerify`, address and timeout. -/
  dialTLS : σ → Bool → String → Nat → σ × Except Err Nat
  /-- `routeros.NewClient(conn)`: the error, if any. -/
  newClient : σ → Nat → σ × Option Err
  /-- `client.Run(sentence...)`. -/
  run : σ → Nat → List String → σ × Except Err Reply
  /-- `client.Close()`. -/
  close : σ → Nat → σ
  /-- `dns.ClientConfigFromFile`: the `Servers` of the configuration, or nil. -/
  clientConfigFromFile : σ → σ × Option (List String)
  /-- `dns.Fqdn`. -/
  fqdn : String → String
  /-- `dnsCli.Exchange(msg, server)` for an SRV question: the answer section. -/
  exchange : σ → String → String → σ × Except Err (List RR)
  /-- Reading of the clock, in nanoseconds. -/
  now : σ → σ × Int

/-- Go interface `routerOSCollector`, its `collect` method: from the world
state, the device and the client of the context to the new world state, the
metrics sent on the channel and the returned error. -/
structure RouterOSCollector (σ : Type) where
  collect : σ → Device → Client → σ × List Metric × Option Err

/-- Go `collector`. -/
structure Collector (σ : Type) where
  devices : List Device
  collectors : List (RouterOSCollector σ)
  timeout : Nat
  enableTLS : Bool
  insecureTLS : Bool

/-- State passed through the embedded functions. -/
structure St (σ : Type) where
  world : σ
  ch : List Metric := []
  calls : List Event := []
deriving DecidableEq, Repr

def apiPort : String := "8728"
def apiPortTLS : String := "8729"
def dnsPort : Int := 53

/-- The constant `namespace` of collector.go. -/
def exporterNamespace : String := "mikrotik"

/-- Go `prometheus.BuildFQName`. -/
def buildFQName (ns subsystem name : String) : String :=
  if name = "" then ""
  else if ns ≠ "" ∧ subsystem ≠ "" then "_".intercalate [ns, subsystem, name]
  else if ns ≠ "" then "_".intercalate [ns, name]
  else if subsystem ≠ "" then "_".intercalate [subsystem, name]
  else name

/-- Name of the descriptor `scrapeDurationDesc` (collector.go, lines 32-37). -/
def scrapeDurationDesc : String :=
  buildFQName exporterNamespace "scrape" "collector_duration_seconds"

/-- Name of the descriptor `scrapeSuccessDesc` (collector.go, lines 38-43). -/
def scrapeSuccessDesc : String :=
  buildFQName exporterNamespace "scrape" "collector_success"

/-- Go `strings.TrimRight`. -/
def trimRight (s cutset : String) : String :=
  String.mk (s.data.reverse.dropWhile fun ch => cutset.data.contains ch).reverse

/-- Go `strconv.Itoa`. -/
def itoa (n : Int) : String :=
  if n < 0 then "-" ++ String.mk (Nat.toDigits 10 n.natAbs) else String.mk (Nat.toDigits 10 n.natAbs)

/-- Go `net.JoinHostPort`. -/
def joinHostPort (host port : String) : String :=
  if host.data.contains ':' then "[" ++ host ++ "]:" ++ port else host ++ ":" ++ port

/-! ## Calls to the outside, each recorded in `calls` -/

section Embedding

variable {σ : Type}

/-- Dial without TLS. -/
def opDialTimeout (W : World σ) (addr : String) (timeout : Nat) (s : St σ) :
    St σ × Except Err Nat :=
  let r := W.dialTimeout s.world addr timeout
  ({ s with world := r.1, calls := s.calls ++ [.dial addr r.2.toOption] }, r.2)

/-- Dial with TLS. -/
def opDialTLS (W : World σ) (insecure : Bool) (addr : String) (timeout : Nat) (s : St σ) :
    St σ × Except Err Nat :=
  let r := W.dialTLS s.world insecure addr timeout
  ({ s with world := r.1, calls := s.calls ++ [.dial addr r.2.toOption] }, r.2)

/-- Go `routeros.NewClient`. -/
def opNewClient (W : World σ) (conn : Nat) (s : St σ) : St σ × Except Err Client :=
  let r := W.newClient s.world conn
  match r.2 with
  | some e => ({ s with world := r.1 }, .error e)
  | none => ({ s with world := r.1 }, .ok ⟨conn⟩)

/-- Go `client.Run`. -/
def opRun (W : World σ) (cl : Client) (sentence : List String) (s : St σ) :
    St σ × Except Err Reply :=
  let r := W.run s.world cl.rwc sentence
  ({ s with world := r.1, calls := s.calls ++ [.run cl.rwc sentence] }, r.2)

/-- Go `client.Close`. -/
def opClose (W : World σ) (cl : Client) (s : St σ) : St σ :=
  { s with world := W.close s.world cl.rwc, calls := s.calls ++ [.close cl.rwc] }

/-- Go `dnsCli.Exchange` of the SRV question for `name`. -/
def opExchange (W : World σ) (name server : String) (s : St σ) :
    St σ × Except Err (List RR) :=
  let r := W.exchange s.world name server
  ({ s with world := r.1, calls := s.calls ++ [.query name server] }, r.2)

/-! ## `collector.connect` -/

/-- The dialling part of `connect` (collector.go, lines 258-280): the port
defaulting through the device pointer and the dial. -/
def connectDial (W : World σ) (c : Collector σ) (d : Device) (s : St σ) :
    St σ × Device × Except Err Nat :=
  if ¬ c.enableTLS then
    let d := if d.Port = "" then { d with Port := apiPort } else d
    let r := opDialTimeout W (d.Address ++ ":" ++ d.Port) c.timeout s
    (r.1, d, r.2)
  else
    let d := if d.Port = "" then { d with Port := apiPortTLS } else d
    let r := opDialTLS W c.insecureTLS (d.Address ++ ":" ++ d.Port) c.timeout s
    (r.1, d, r.2)

/-- The second stage of the login (collector.go, lines 302-313), from the
value of the `ret` field. -/
def connectChallenge (W : World σ) (d : Device) (client : Client) (ret : String) (s : St σ) :
    St σ × Outcome (Except Err Client) :=
  match hexDecodeString ret with
  | .error e => (s, .ret (.error (.invalidRet e)))
  | .ok b =>
    let r := opRun W client
      ["/login", "=name=" ++ d.User, "=response=" ++ challengeResponse b d.Password] s
    match r.2 with
    | .error e => (r.1, .ret (.error e))
    | .ok _ => (r.1, .ret (.ok client))

/-- The login part of `connect` (collector.go, lines 289-313).  Line 293 reads
the map of `r.Done` and panics on a nil `r.Done`. -/
def connectLogin (W : World σ) (d : Device) (client : Client) (s : St σ) :
    St σ × Outcome (Except Err Client) :=
  let r := opRun W client ["/login", "=name=" ++ d.User, "=password=" ++ d.Password] s
  match r.2 with
  | .error e => (r.1, .ret (.error e))
  | .ok reply =>
    match reply.Done with
    | none => (r.1, .abort .panic)
    | some done =>
      match done.Map.lookup "ret" with
      | none =>
        if reply.Done.isSome then (r.1, .ret (.ok client))
        else (r.1, .ret (.error .noRet))
      | some ret => connectChallenge W d client ret r.1

/-- Go `collector.connect` (collector.go, lines 253-314).  The device is passed
by pointer: the device after the call is part of the result. -/
def connect (W : World σ) (c : Collector σ) (d : Device) (s : St σ) :
    St σ × Device × Outcome (Except Err Client) :=
  let r := connectDial W c d s
  match r.2.2 with
  | .error e => (r.1, r.2.1, .ret (.error e))
  | .ok conn =>
    let n := opNewClient W conn r.1
    match n.2 with
    | .error e => (n.1, r.2.1, .ret (.error e))
    | .ok client =>
      let l := connectLogin W r.2.1 client n.1
      (l.1, r.2.1, l.2)

/-! ## `collector.getIdentity` -/

/-- The loop over `reply.Re` in `getIdentity` (collector.go, lines 206-208). -/
def identityOf (re : List Sentence) (d : Device) : Device :=
  re.foldl (fun d id => { d with Name := mapGet id.Map "name" }) d

/-- Go `collector.getIdentity` (collector.go, lines 187-211); the deferred
`cl.Close()` runs on both returns after the connection. -/
def getIdentity (W : World σ) (c : Collector σ) (d : Device) (s : St σ) :
    St σ × Device × Outcome (Option Err) :=
  let r := connect W c d s
  match r.2.2 with
  | .abort a => (r.1, r.2.1, .abort a)
  | .ret (.error e) => (r.1, r.2.1, .ret (some e))
  | .ret (.ok cl) =>
    let q := opRun W cl ["/system/identity/print"] r.1
    match q.2 with
    | .error e => (opClose W cl q.1, r.2.1, .ret (some e))
    | .ok reply => (opClose W cl q.1, identityOf reply.Re r.2.1, .ret none)

/-! ## `collector.connectAndCollect` and `collector.collectForDevice` -/

/-- The loop over `c.collectors` in `connectAndCollect` (collector.go, lines
243-250); `i` is the index in the pipeline of the first collector of the list. -/
def collectLoop : List (RouterOSCollector σ) → Nat → Device → Client → St σ →
    St σ × Option Err
  | [], _, _, _, s => (s, none)
  | co :: rest, i, d, cl, s =>
    let r := co.collect s.world d cl
    let s1 : St σ :=
      { world := r.1, ch := s.ch ++ r.2.1,
        calls := s.calls ++ [.collect ⟨i, d, cl.rwc, r.2.1, r.2.2⟩] }
    match r.2.2 with
    | some e => (s1, some e)
    | none => collectLoop rest (i + 1) d cl s1

/-- Go `collector.connectAndCollect` (collector.go, lines 232-251); the
deferred `cl.Close()` runs when the loop returns. -/
def connectAndCollect (W : World σ) (c : Collector σ) (d : Device) (s : St σ) :
    St σ × Device × Outcome (Option Err) :=
  let r := connect W c d s
  match r.2.2 with
  | .abort a => (r.1, r.2.1, .abort a)
  | .ret (.error e) => (r.1, r.2.1, .ret (some e))
  | .ret (.ok cl) =>
    let l := collectLoop c.collectors 0 r.2.1 cl r.1
    (opClose W cl l.1, r.2.1, .ret l.2)

/-- Go `collector.collectForDevice` (collector.go, lines 213-230). -/
def collectForDevice (W : World σ) (c : Collector σ) (d : Device) (s : St σ) :
    St σ × Outcome Unit :=
  let t0 := W.now s.world
  let r := connectAndCollect W c d { s with world := t0.1 }
  match r.2.2 with
  | .abort a => (r.1, .abort a)
  | .ret err =>
    let t1 := W.now r.1.world
    let duration := t1.2 - t0.2
    let success := if err ≠ none then 0 else 1
    ({ r.1 with world := t1.1,
                ch := r.1.ch ++ [⟨scrapeDurationDesc, .seconds duration, [r.2.1.Name]⟩,
                                 ⟨scrapeSuccessDesc, .const success, [r.2.1.Name]⟩] },
      .ret ())

/-! ## `collector.Collect` -/

/-- The device built from one SRV answer (collector.go, lines 162-166). -/
def srvDevice (dev : Device) (target : String) : Device :=
  { Name := trimRight target ".", Address := trimRight target ".",
    User := dev.User, Password := dev.Password }

/-- The loop over `r.Answer` (collector.go, lines 160-170). -/
def srvLoop (W : World σ) (c : Collector σ) (dev : Device) :
    List RR → List Device → St σ → St σ × Outcome (List Device)
  | [], realDevices, s => (s, .ret realDevices)
  | .other _ :: ks, realDevices, s => srvLoop W c dev ks realDevices s
  | .SRV target :: ks, realDevices, s =>
    let r := getIdentity W c (srvDevice dev target) s
    match r.2.2 with
    | .abort a => (r.1, .abort a)
    | .ret _ => srvLoop W c dev ks (realDevices ++ [r.2.1]) r.1

/-- The server the SRV question is sent to (collector.go, lines 142-148), from
the first server of the system configuration. -/
def dnsServerOf (dev : Device) (first : String) : String :=
  let dnsServer := joinHostPort first (itoa dnsPort)
  if ({} : DnsServer) ≠ dev.Srv.Dns then
    joinHostPort dev.Srv.Dns.Address (itoa dev.Srv.Dns.Port)
  else dnsServer

/-- The branch of `Collect` for an entry with an SRV record (collector.go,
lines 138-170).  The error of `ClientConfigFromFile` is dropped: a nil
configuration and an empty server list make line 142 panic. -/
def resolveSrv (W : World σ) (c : Collector σ) (dev : Device) (realDevices : List Device)
    (s : St σ) : St σ × Outcome (List Device) :=
  let conf := W.clientConfigFromFile s.world
  match conf.2 with
  | none => ({ s with world := conf.1 }, .abort .panic)
  | some [] => ({ s with world := conf.1 }, .abort .panic)
  | some (first :: _) =>
    let r := opExchange W (W.fqdn dev.Srv.Record) (dnsServerOf dev first)
      { s with world := conf.1 }
    match r.2 with
    | .error _ => (r.1, .abort (.exit 1))
    | .ok answer => srvLoop W c dev answer realDevices r.1

/-- The loop over `c.devices` that builds `realDevices` (collector.go, lines
134-174). -/
def resolve (W : World σ) (c : Collector σ) :
    List Device → List Device → St σ → St σ × Outcome (List Device)
  | [], realDevices, s => (s, .ret realDevices)
  | dev :: rest, realDevices, s =>
    if ({} : SrvRecord) ≠ dev.Srv then
      let r := resolveSrv W c dev realDevices s
      match r.2 with
      | .abort a => (r.1, .abort a)
      | .ret realDevices => resolve W c rest realDevices r.1
    else resolve W c rest (realDevices ++ [dev]) s

/-! ## The goroutines of `Collect`

A goroutine is a sequence of actions on the shared state, each call to the
outside and each send on the channel being one action; between two of its
actions the other goroutines may act. -/

/-- A unit of work in progress: returned (or the process stopped), or about to
perform one action, `upd`, and continue as `next` tells from the state in which
the action is performed. -/
inductive Work (σ : Type) : Type
  | done (out : Outcome Unit)
  | act (upd : St σ → St σ) (next : St σ → Work σ)

/-- One action that yields a value to what follows. -/
def Work.call {α : Type} (op : St σ → St σ × α) (k : α → Work σ) : Work σ :=
  .act (fun s => (op s).1) (fun s => k (op s).2)

/-- One send on the channel. -/
def Work.send (m : Metric) (k : Work σ) : Work σ :=
  .act (fun s => { s with ch := s.ch ++ [m] }) (fun _ => k)

/-- The sends of a list of metrics, one after another. -/
def Work.sendAll : List Metric → Work σ → Work σ
  | [], k => k
  | m :: ms, k => Work.send m (Work.sendAll ms k)

/-- The work run without interruption from the state `s`. -/
def Work.run : Work σ → St σ → St σ × Outcome Unit
  | .done out, s => (s, out)
  | .act upd next, s => Work.run (next s) (upd s)

/-- The actions of the second stage of the login; `k` is what the caller does
with the result. -/
def connectChallengeW (W : World σ) (d : Device) (client : Client) (ret : String)
    (k : Except Err Client → Work σ) : Work σ :=
  match hexDecodeString ret with
  | .error e => k (.error (.invalidRet e))
  | .ok b =>
    Work.call (opRun W client
        ["/login", "=name=" ++ d.User, "=response=" ++ challengeResponse b d.Password])
      fun r =>
        match r with
        | .error e => k (.error e)
        | .ok _ => k (.ok client)

/-- The actions of the login part of `connect`. -/
def connectLoginW (W : World σ) (d : Device) (client : Client)
    (k : Except Err Client → Work σ) : Work σ :=
  Work.call (opRun W client ["/login", "=name=" ++ d.User, "=password=" ++ d.Password])
    fun r =>
      match r with
      | .error e => k (.error e)
      | .ok reply =>
        match reply.Done with
        | none => .done (.abort .panic)
        | some done =>
          match done.Map.lookup "ret" with
          | none => if reply.Done.isSome then k (.ok client) else k (.error .noRet)
          | some ret => connectChallengeW W d client ret k

/-- The actions of `connect` after the dial: `NewClient`, then the login. -/
def connectClientW (W : World σ) (d : Device) (k : Except Err Client → Work σ)
    (r : Except Err Nat) : Work σ :=
  match r with
  | .error e => k (.error e)
  | .ok conn =>
    Work.call (opNewClient W conn) fun n =>
      match n with
      | .error e => k (.error e)
      | .ok client => connectLoginW W d client k

/-- The actions of `connect`: the dial, `NewClient`, the login request and,
for a challenge, the second login request; `k` is what the caller does with the
device and the result. -/
def connectW (W : World σ) (c : Collector σ) (d : Device)
    (k : Device → Except Err Client → Work σ) : Work σ :=
  if ¬ c.enableTLS then
    let d := if d.Port = "" then { d with Port := apiPort } else d
    Work.call (opDialTimeout W (d.Address ++ ":" ++ d.Port) c.timeout)
      (connectClientW W d (k d))
  else
    let d := if d.Port = "" then { d with Port := apiPortTLS } else d
    Work.call (opDialTLS W c.insecureTLS (d.Address ++ ":" ++ d.Port) c.timeout)
      (connectClientW W d (k d))

/-- The actions of the loop over `c.collectors`: each collector is invoked,
then what it sends is sent, metric by metric. -/
def collectLoopW : List (RouterOSCollector σ) → Nat → Device → Client →
    (Option Err → Work σ) → Work σ
  | [], _, _, _, k => k none
  | co :: rest, i, d, cl, k =>
    .act
      (fun s =>
        { s with world := (co.collect s.world d cl).1,
                 calls := s.calls ++ [.collect ⟨i, d, cl.rwc, (co.collect s.world d cl).2.1,
                   (co.collect s.world d cl).2.2⟩] })
      (fun s =>
        Work.sendAll (co.collect s.world d cl).2.1
          (match (co.collect s.world d cl).2.2 with
            | some e => k (some e)
            | none => collectLoopW rest (i + 1) d cl k))

/-- The actions of `connectAndCollect`. -/
def connectAndCollectW (W : World σ) (c : Collector σ) (d : Device)
    (k : Device → Option Err → Work σ) : Work σ :=
  connectW W c d fun d r =>
    match r with
    | .error e => k d (some e)
    | .ok cl =>
      collectLoopW c.collectors 0 d cl fun err =>
        Work.call (fun s => (opClose W cl s, ())) fun _ => k d err

/-- The goroutine of one device (collector.go, lines 178-181): the actions of
`collectForDevice`, two readings of the clock around those of
`connectAndCollect`, then the two sends. -/
def collectForDeviceW (W : World σ) (c : Collector σ) (d : Device) : Work σ :=
  Work.call (fun s => ({ s with world := (W.now s.world).1 }, (W.now s.world).2)) fun t0 =>
    connectAndCollectW W c d fun d err =>
      Work.call (fun s => ({ s with world := (W.now s.world).1 }, (W.now s.world).2)) fun t1 =>
        Work.send ⟨scrapeDurationDesc, .seconds (t1 - t0), [d.Name]⟩
          (Work.send ⟨scrapeSuccessDesc, .const (if err ≠ none then 0 else 1), [d.Name]⟩
            (.done (.ret ())))

/-- The goroutines still running are run to the end, one after another. -/
def runAll : List (Work σ) → St σ → St σ × Outcome Unit
  | [], s => (s, .ret ())
  | t :: ts, s =>
    let r := t.run s
    match r.2 with
    | .abort a => (r.1, .abort a)
    | .ret _ => runAll ts r.1

/-- The goroutines run under a schedule: each entry names the goroutine that
performs its next action (an entry that names none, or one that has returned,
is passed over); a panic stops the process at once; when the schedule is used
up the goroutines still running are run to the end, as `wg.Wait()` waits for
all of them. -/
def interleave : List Nat → List (Work σ) → St σ → St σ × Outcome Unit
  | [], ts, s => runAll ts s
  | i :: sched, ts, s =>
    match ts[i]? with
    | some (.act upd next) =>
      match next s with
      | .done (.abort a) => (upd s, .abort a)
      | .done (.ret u) => interleave sched (ts.set i (.done (.ret u))) (upd s)
      | .act u n => interleave sched (ts.set i (.act u n)) (upd s)
    | some (.done _) => interleave sched ts s
    | none => interleave sched ts s

/-- The goroutines of one cycle (collector.go, lines 176-184), one per
resolved device, under the schedule `sched`. -/
def fanOut (W : World σ) (c : Collector σ) (sched : List Nat) (realDevices : List Device)
    (s : St σ) : St σ × Outcome Unit :=
  interleave sched (realDevices.map (collectForDeviceW W c)) s

/-- Go `collector.Collect` (collector.go, lines 130-185).  The goroutines have
no order among them: `sched` is the order in which their actions are
performed.  The collector after the call is part of the result. -/
def Collect (W : World σ) (c : Collector σ) (sched : List Nat) (s : St σ) :
    Collector σ × St σ × Outcome Unit :=
  let r := resolve W c c.devices [] s
  match r.2 with
  | .abort a => (c, r.1, .abort a)
  | .ret realDevices =>
    let f := fanOut W c sched realDevices r.1
    (c, f.1, f.2)

/-! ## `routeCollector` (routes_collector.go) -/

/-- The property list of `routeCollector.init`. -/
def routeProps : List String := ["dst-address", "gateway", "distance", "pref-src"]

/-- Modelled from the spec: the helper `description` that builds the descriptor
of `routeCollector.init` is not among the sources; the descriptor is identified
by its stable metric name, in the namespace of the exporter. -/
def routeDescription : String := "mikrotik_route_metrics"

/-- Go `routeCollector.collectMetrics`. -/
def routeCollectMetrics (d : Device) (re : Sentence) : Metric :=
  ⟨routeDescription, .const 0,
    [d.Name, mapGet re.Map "dst-address", mapGet re.Map "gateway", mapGet re.Map "distance",
      mapGet re.Map "pref-src"]⟩

/-- Go `routeCollector.collect` with `routeCollector.fetch`. -/
def routeCollector (W : World σ) : RouterOSCollector σ where
  collect w d cl :=
    let r := W.run w cl.rwc ["/ip/route/print", "=.proplist=" ++ ",".intercalate routeProps]
    match r.2 with
    | .error e => (r.1, [], some e)
    | .ok reply => (r.1, reply.Re.map (routeCollectMetrics d), none)

end Embedding

/-! ## A concrete world -/

/-- Reply of the sample devices: `r1.lan` logs in in one stage, `old.lan` sends
the challenge `aabbcc`, `odd.lan` sends a challenge that is not hexadecimal,
`bad.lan` rejects the login. -/
def sampleRun (host : String) (sentence : List String) : Except Err Reply :=
  if sentence.head? = some "/login" then
    if host = "bad.lan:8728" then .error (.ext "invalid user name or password")
    else if host = "old.lan:8728" then
      if sentence.getD 2 "" = "=password=pass" then .ok { Done := some ⟨[("ret", "aabbcc")]⟩ }
      else if sentence.getD 2 "" = "=response=00a8be8437325a4686bfec4ddab52adcf0" then
        .ok { Done := some ⟨[]⟩ }
      else .error (.ext "cannot log in")
    else if host = "odd.lan:8728" then .ok { Done := some ⟨[("ret", "xyz")]⟩ }
    else .ok { Done := some ⟨[]⟩ }
  else if sentence.head? = some "/system/identity/print" then
    if host = "r1.lan:8728" then .ok { Re := [⟨[("name", "core-router")]⟩], Done := some ⟨[]⟩ }
    else .error (.ext "no such command")
  else if sentence.head? = some "/ip/route/print" then
    .ok { Re := [⟨[("dst-address", "0.0.0.0/0"), ("gateway", "10.0.0.1"), ("distance", "1")]⟩],
          Done := some ⟨[]⟩ }
  else .error (.ext "no such command")

/-- World of the sample devices; its state lists the addresses of the
connections opened so far, the handle of a connection being its position.  `conf` is what the
resolver configuration file gives. -/
def sampleWorld (conf : Option (List String)) : World (List String) where
  dialTimeout w addr _ :=
    if addr = "down.lan:8728" then (w, .error (.ext "connection refused"))
    else (w ++ [addr], .ok w.length)
  dialTLS w _ _ _ := (w, .error (.ext "tls: handshake failure"))
  newClient w _ := (w, none)
  run w conn sentence := (w, sampleRun (w.getD conn "") sentence)
  close w _ := w
  clientConfigFromFile w := (w, conf)
  fqdn name := if name.data.getLast? = some '.' then name else name ++ "."
  exchange w name server :=
    if name = "_api._tcp.lan." ∧ (server = "10.0.0.53:53" ∨ server = "10.0.0.1:5353") then
      (w, .ok [.SRV "r1.lan.", .other 5, .SRV "old.lan."])
    else (w, .error (.ext "i/o timeout"))
  now w := (w, 1000 * w.length)

/-- A collector that sends one metric and fails. -/
def failingCollector : RouterOSCollector (List String) where
  collect w d _ := (w, [⟨"mikrotik_sample", .const 7, [d.Name]⟩], some (.ext "query failed"))

/-- Collector over the sample world, without TLS. -/
def sampleCollector (devices : List Device) (collectors : List (RouterOSCollector (List String))) :
    Collector (List String) where
  devices := devices
  collectors := collectors
  timeout := 5
  enableTLS := false
  insecureTLS := false

/-! ## Reading the record of calls -/

/-- The login requests among the recorded calls. -/
def loginRequests (calls : List Event) : List (List String) :=
  calls.filterMap fun e =>
    match e with
    | .run _ sentence => if sentence.head? = some "/login" then some sentence else none
    | _ => none

/-- The dial attempts among the recorded calls, with the connection obtained. -/
def dialAttempts (calls : List Event) : List (Option Nat) :=
  calls.filterMap fun e =>
    match e with
    | .dial _ conn => some conn
    | _ => none

/-- The connections closed among the recorded calls. -/
def closed (calls : List Event) : List Nat :=
  calls.filterMap fun e =>
    match e with
    | .close conn => some conn
    | _ => none

/-- The collector invocations among the recorded calls. -/
def collectCalls (calls : List Event) : List CollectCall :=
  calls.filterMap fun e =>
    match e with
    | .collect call => some call
    | _ => none

/-! ## The challenge response as the specification words it -/

/-- Lowercase hexadecimal encoding, two digits per byte. -/
def lowerHex (bs : List Nat) : String :=
  String.mk (bs.flatMap fun b => [hexDigit (b % 256 / 16), hexDigit (b % 16)])

/-- The response as specified: `"00"` followed by the lowercase hexadecimal
MD5 of the zero byte, the password bytes and the challenge bytes. -/
def challengeResponseSpec (c : List Nat) (p : String) : String :=
  "00" ++ lowerHex (MD5.sum ([0] ++ stringBytes p ++ c))

/-! ## Notions used to state the properties -/

section Reading

variable {σ : Type}

/-- The port `connect` dials: the configured one, or the default of the mode. -/
def dialPort (c : Collector σ) (d : Device) : String :=
  if d.Port = "" then (if c.enableTLS then apiPortTLS else apiPort) else d.Port

/-- What a run of the collector loop leaves: the invocations `evs`, in order. -/
structure LoopRun (cos : List (RouterOSCollector σ)) (i : Nat) (d : Device) (cl : Client)
    (err : Option Err) (evs : List CollectCall) : Prop where
  idx : evs.map (·.idx) = List.range' i evs.length
  le : evs.length ≤ cos.length
  session : ∀ ev ∈ evs, ev.conn = cl.rwc ∧ ev.dev = d
  returned : ∀ ev ∈ evs, ∃ co w, cos[ev.idx - i]? = some co
    ∧ (co.collect w d cl).2 = (ev.sent, ev.err)
  result : (err = none ∧ evs.length = cos.length ∧ ∀ ev ∈ evs, ev.err = none)
    ∨ ∃ e before last, err = some e ∧ evs = before ++ [last] ∧ last.err = some e
        ∧ ∀ ev ∈ before, ev.err = none

/-- The contract of `client.Run`: a reply returned without error has its
terminal `!done` sentence. -/
def World.Terminated (W : World σ) : Prop :=
  ∀ w conn sentence reply, (W.run w conn sentence).2 = .ok reply → reply.Done ≠ none

/-- The targets of the SRV records of an answer section, in order. -/
def srvTargets (answer : List RR) : List String :=
  answer.filterMap fun k =>
    match k with
    | .SRV target => some target
    | .other _ => none

/-- Whatever the states in which it performs its actions, the work returns
and the metrics it adds to the channel, in order, satisfy `R`. -/
def Work.Sends : Work σ → (List Metric → Prop) → Prop
  | .done (.ret _), R => R []
  | .done (.abort _), _ => False
  | .act upd next, R =>
    ∀ s, ∃ ms, (upd s).ch = s.ch ++ ms ∧ Work.Sends (next s) (fun rest => R (ms ++ rest))

/-- An interleaving of several sequences: `out` takes the elements of the
lists of `ls`, each list in its own order. -/
inductive Shuffle {α : Type} : List (List α) → List α → Prop
  | done (ls : List (List α)) : (∀ l ∈ ls, l = []) → Shuffle ls []
  | take (ls : List (List α)) (i : Nat) (x : α) (l out : List α) :
      ls[i]? = some (x :: l) → Shuffle (ls.set i l) out → Shuffle ls (x :: out)

/-- What the goroutine of the device `d` sends: what collectors of the
pipeline sent for the device, then its duration sample and its success sample. -/
def UnitBlock (c : Collector σ) (d : Device) (u : List Metric) : Prop :=
  ∃ (sent : List Metric) (ns : Int) (v : Nat),
    u = sent
      ++ [⟨"mikrotik_scrape_collector_duration_seconds", .seconds ns, [d.Name]⟩,
          ⟨"mikrotik_scrape_collector_success", .const v, [d.Name]⟩]
    ∧ v ≤ 1
    ∧ ∀ m ∈ sent, ∃ co ∈ c.collectors, ∃ w cl,
        m ∈ (co.collect w { d with Port := dialPort c d } cl).2.1

/-- What happens after a call that returned or stopped the process. -/
def Work.after {α : Type} (r : St σ × Outcome α) (k : α → Work σ) : St σ × Outcome Unit :=
  match r.2 with
  | .ret a => (k a).run r.1
  | .abort h => (r.1, .abort h)

end Reading

/-! ## Sample devices -/

/-- Device with the two-stage login. -/
def sampleOld : Device := { Name := "old", Address := "old.lan", User := "admin", Password := "pass" }

/-- Device with the one-stage login. -/
def sampleR1 : Device := { Name := "r1", Address := "r1.lan", User := "admin", Password := "pass" }

/-- Device that accepts the connection and rejects the login. -/
def sampleBad : Device := { Name := "bad", Address := "bad.lan", User := "admin", Password := "pass" }

/-- Device whose challenge is not hexadecimal. -/
def sampleOdd : Device := { Name := "odd", Address := "odd.lan", User := "admin", Password := "pass" }

/-- Device that refuses the connection. -/
def sampleDown : Device := { Name := "down", Address := "down.lan", User := "admin", Password := "pass" }

/-- Entry resolved through the system resolver. -/
def sampleSrv : Device :=
  { Name := "lan", Srv := { Record := "_api._tcp.lan" }, User := "admin", Password := "pass" }

/-- Entry resolved through its own resolver. -/
def sampleSrvCustom : Device :=
  { Name := "lan", Srv := { Record := "_api._tcp.lan", Dns := ⟨"10.0.0.1", 5353⟩ },
    User := "admin", Password := "pass" }

/-- Entry whose SRV query fails. -/
def sampleGone : Device :=
  { Name := "gone", Srv := { Record := "_gone._tcp.lan" }, User := "admin", Password := "pass" }

/-- The sample world with a readable resolver configuration. -/
def W0 : World (List String) := sampleWorld (some ["10.0.0.53"])

/-- State before anything happened: no connection, empty channel, no call. -/
def start : St (List String) := ⟨[], [], []⟩

/-! ## Lemmas -/

theorem MD5.length_leBytes (k x : Nat) : (MD5.leBytes k x).length = k := by
  induction k generalizing x with
  | zero => rfl
  | succ k ih => simp [MD5.leBytes, ih]

theorem MD5.length_sum (msg : List Nat) : (MD5.sum msg).length = 16 := by
  simp [MD5.sum, MD5.length_leBytes]

/-- The test suite of RFC 1321 (the empty string, `a`, `abc`, `message digest`)
and a message of two blocks. -/
theorem MD5.sum_vectors :
    fmtHex (MD5.sum (stringBytes "")) = "d41d8cd98f00b204e9800998ecf8427e".data
      ∧ fmtHex (MD5.sum (stringBytes "a")) = "0cc175b9c0f1b6a831c399e269772661".data
      ∧ fmtHex (MD5.sum (stringBytes "abc")) = "900150983cd24fb0d6963f7d28e17f72".data
      ∧ fmtHex (MD5.sum (stringBytes "message digest")) = "f96b697d7cb7938d525a2f31aaf161d0".data
      ∧ fmtHex (MD5.sum (List.replicate 70 97)) = "0f5c6c4e740bfcc08c3c26ccb2673d46".data := by
  decide

theorem fmtHex_eq (bs : List Nat) :
    fmtHex bs = bs.flatMap fun b => [hexDigit (b % 256 / 16), hexDigit (b % 16)] := by
  induction bs with
  | nil => rfl
  | cons b bs ih => simp [fmtHex, ih]

theorem length_fmtHex (bs : List Nat) : (fmtHex bs).length = 2 * bs.length := by
  induction bs with
  | nil => rfl
  | cons b bs ih => simp only [fmtHex, List.length_cons, ih]; omega

/-- C1: for every challenge and password, `challengeResponse` is `"00"`
followed by the lowercase hexadecimal MD5 of the zero byte, the password bytes
and the challenge bytes; it is 34 characters long; and for the password
`pass` with the challenge `AA BB CC` both it and the specified form are the
hand-computed `00a8be8437325a4686bfec4ddab52adcf0`. -/
theorem challengeResponse_spec (c : List Nat) (p : String) :
    challengeResponse c p = challengeResponseSpec c p
      ∧ (challengeResponse c p).length = 34
      ∧ challengeResponse [0xAA, 0xBB, 0xCC] "pass" = "00a8be8437325a4686bfec4ddab52adcf0"
      ∧ challengeResponseSpec [0xAA, 0xBB, 0xCC] "pass" = "00a8be8437325a4686bfec4ddab52adcf0" := by
  refine ⟨?_, ?_, by decide, by decide⟩
  · simp [challengeResponse, challengeResponseSpec, lowerHex, md5New, Digest.Write, Digest.Sum,
      fmtHex_eq]
  · simp [challengeResponse, md5New, Digest.Write, Digest.Sum, String.length, length_fmtHex,
      MD5.length_sum]

section Lemmas

variable {σ : Type}

theorem connectDial_ch (W : World σ) (c : Collector σ) (d : Device) (s : St σ) :
    (connectDial W c d s).1.ch = s.ch := by
  unfold connectDial opDialTimeout opDialTLS
  split <;> rfl

theorem connectDial_dev (W : World σ) (c : Collector σ) (d : Device) (s : St σ) :
    (connectDial W c d s).2.1 = { d with Port := dialPort c d } := by
  unfold connectDial dialPort
  by_cases htls : c.enableTLS = true <;> by_cases hp : d.Port = "" <;> simp [htls, hp]

theorem connectDial_calls (W : World σ) (c : Collector σ) (d : Device) (s : St σ) :
    (connectDial W c d s).1.calls =
      s.calls ++ [.dial (d.Address ++ ":" ++ dialPort c d) (connectDial W c d s).2.2.toOption] := by
  unfold connectDial dialPort opDialTimeout opDialTLS
  by_cases htls : c.enableTLS = true <;> by_cases hp : d.Port = "" <;> simp [htls, hp]

theorem opNewClient_frame (W : World σ) (conn : Nat) (s : St σ) :
    (opNewClient W conn s).1.ch = s.ch ∧ (opNewClient W conn s).1.calls = s.calls
      ∧ ∀ cl, (opNewClient W conn s).2 = .ok cl → cl = ⟨conn⟩ := by
  simp only [opNewClient]
  cases (W.newClient s.world conn).2 <;> simp

theorem connectChallenge_frame (W : World σ) (d : Device) (cl : Client) (ret : String)
    (s : St σ) :
    (connectChallenge W d cl ret s).1.ch = s.ch
      ∧ (∃ sents : List (List String),
          (connectChallenge W d cl ret s).1.calls = s.calls ++ sents.map (Event.run cl.rwc))
      ∧ ∀ cl1, (connectChallenge W d cl ret s).2 = .ret (.ok cl1) → cl1 = cl := by
  simp only [connectChallenge]
  cases hexDecodeString ret with
  | error e => exact ⟨rfl, ⟨[], by simp⟩, by simp⟩
  | ok b =>
    simp only
    cases (opRun W cl
      ["/login", "=name=" ++ d.User, "=response=" ++ challengeResponse b d.Password] s).2 with
    | error e =>
      exact ⟨rfl,
        ⟨[["/login", "=name=" ++ d.User, "=response=" ++ challengeResponse b d.Password]], rfl⟩,
        by simp⟩
    | ok r =>
      refine ⟨rfl,
        ⟨[["/login", "=name=" ++ d.User, "=response=" ++ challengeResponse b d.Password]], rfl⟩,
        ?_⟩
      intro cl1 h
      simp at h
      exact h.symm

theorem connectLogin_frame (W : World σ) (d : Device) (cl : Client) (s : St σ) :
    (connectLogin W d cl s).1.ch = s.ch
      ∧ (∃ sents : List (List String),
          (connectLogin W d cl s).1.calls = s.calls ++ sents.map (Event.run cl.rwc))
      ∧ ∀ cl1, (connectLogin W d cl s).2 = .ret (.ok cl1) → cl1 = cl := by
  simp only [connectLogin]
  cases (opRun W cl ["/login", "=name=" ++ d.User, "=password=" ++ d.Password] s).2 with
  | error e => exact ⟨rfl, ⟨[["/login", "=name=" ++ d.User, "=password=" ++ d.Password]], rfl⟩, by simp⟩
  | ok reply =>
    simp only
    cases hd : reply.Done with
    | none => exact ⟨rfl, ⟨[["/login", "=name=" ++ d.User, "=password=" ++ d.Password]], rfl⟩, by simp⟩
    | some done =>
      simp only
      cases done.Map.lookup "ret" with
      | none =>
        refine ⟨?_, ⟨[["/login", "=name=" ++ d.User, "=password=" ++ d.Password]], ?_⟩, ?_⟩
        · simp; rfl
        · simp; rfl
        · intro cl1 h
          simp at h
          exact h.symm
      | some ret =>
        obtain ⟨h1, ⟨sents, h2⟩, h4⟩ :=
          connectChallenge_frame W d cl ret
            (opRun W cl ["/login", "=name=" ++ d.User, "=password=" ++ d.Password] s).1
        refine ⟨h1, ⟨["/login", "=name=" ++ d.User, "=password=" ++ d.Password] :: sents, ?_⟩, h4⟩
        simp only at h2 ⊢
        rw [h2]
        simp [opRun]

theorem connect_ch (W : World σ) (c : Collector σ) (d : Device) (s : St σ) :
    (connect W c d s).1.ch = s.ch := by
  simp only [connect]
  cases (connectDial W c d s).2.2 with
  | error e => exact connectDial_ch W c d s
  | ok conn =>
    simp only
    cases (opNewClient W conn (connectDial W c d s).1).2 with
    | error e => simp [(opNewClient_frame W _ _).1, connectDial_ch]
    | ok client =>
      simp [(connectLogin_frame W _ _ _).1, (opNewClient_frame W _ _).1, connectDial_ch]

theorem connect_dev (W : World σ) (c : Collector σ) (d : Device) (s : St σ) :
    (connect W c d s).2.1 = { d with Port := dialPort c d } := by
  simp only [connect]
  cases (connectDial W c d s).2.2 with
  | error e => exact connectDial_dev W c d s
  | ok conn =>
    simp only
    cases (opNewClient W conn (connectDial W c d s).1).2 <;> exact connectDial_dev W c d s

/-- The calls of `connect`: one dial, then requests on the connection
obtained; a returned client wraps that connection. -/
theorem connect_calls (W : World σ) (c : Collector σ) (d : Device) (s : St σ) :
    ∃ (oc : Option Nat) (sents : List (List String)), (connect W c d s).1.calls =
        s.calls ++ .dial (d.Address ++ ":" ++ dialPort c d) oc :: sents.map (Event.run (oc.getD 0))
      ∧ ∀ cl, (connect W c d s).2.2 = .ret (.ok cl) → oc = some cl.rwc := by
  simp only [connect]
  cases hc : (connectDial W c d s).2.2 with
  | error e =>
    refine ⟨none, [], ?_, by simp⟩
    simp only
    rw [connectDial_calls, hc]; rfl
  | ok conn =>
    simp only
    cases hn : (opNewClient W conn (connectDial W c d s).1).2 with
    | error e =>
      refine ⟨some conn, [], ?_, by simp⟩
      simp [(opNewClient_frame W _ _).2.1, connectDial_calls, hc, Except.toOption]
    | ok client =>
      have hcl := (opNewClient_frame W conn (connectDial W c d s).1).2.2 client hn
      subst hcl
      obtain ⟨_, ⟨sents, h2⟩, h3⟩ :=
        connectLogin_frame W (connectDial W c d s).2.1 ⟨conn⟩
          (opNewClient W conn (connectDial W c d s).1).1
      refine ⟨some conn, sents, ?_, ?_⟩
      · simp [h2, (opNewClient_frame W _ _).2.1, connectDial_calls, hc, Except.toOption]
      · intro cl h
        simp only at h
        rw [h3 cl h]

theorem loginRequests_append (xs ys : List Event) :
    loginRequests (xs ++ ys) = loginRequests xs ++ loginRequests ys := by
  simp [loginRequests]

/-- C2: after a successful dial and a first `/login` reply without error whose
terminal record is `done`, `connect` is decided by the `ret` field of `done`
alone.  Without the field it returns the client and has sent the first login
request only.  With a field that decodes to the bytes `b` it sends exactly one
more login request, made of `/login`, the user name and
`=response=` followed by `challengeResponse b password`, stops in the state
this request leaves, and returns the client exactly when the request returns
no error (otherwise it returns the error of the request).  With a field that
does not decode it returns an error and has sent the first login request
only.  In each case the calls made are given in full. -/
theorem connect_handshake (W : World σ) (c : Collector σ) (d d1 : Device) (s s1 s2 s3 : St σ)
    (conn : Nat) (client : Client) (reply : Reply) (done : Sentence)
    (hdial : connectDial W c d s = (s1, d1, .ok conn))
    (hnew : opNewClient W conn s1 = (s2, .ok client))
    (hlogin : opRun W client ["/login", "=name=" ++ d.User, "=password=" ++ d.Password] s2
      = (s3, .ok reply))
    (hdone : reply.Done = some done) :
    (done.Map.lookup "ret" = none →
        connect W c d s = (s3, d1, .ret (.ok client))
          ∧ loginRequests (connect W c d s).1.calls = loginRequests s.calls
              ++ [["/login", "=name=" ++ d.User, "=password=" ++ d.Password]]
          ∧ (connect W c d s).1.calls = s.calls
              ++ [.dial (d.Address ++ ":" ++ d1.Port) (some conn),
                  .run conn ["/login", "=name=" ++ d.User, "=password=" ++ d.Password]])
      ∧ (∀ ret b, done.Map.lookup "ret" = some ret → hexDecodeString ret = .ok b →
          (connect W c d s).1 = (opRun W client
              ["/login", "=name=" ++ d.User, "=response=" ++ challengeResponse b d.Password]
              s3).1
            ∧ loginRequests (connect W c d s).1.calls = loginRequests s.calls
                ++ [["/login", "=name=" ++ d.User, "=password=" ++ d.Password],
                    ["/login", "=name=" ++ d.User,
                      "=response=" ++ challengeResponse b d.Password]]
            ∧ (connect W c d s).1.calls = s.calls
                ++ [.dial (d.Address ++ ":" ++ d1.Port) (some conn),
                    .run conn ["/login", "=name=" ++ d.User, "=password=" ++ d.Password],
                    .run conn ["/login", "=name=" ++ d.User,
                      "=response=" ++ challengeResponse b d.Password]]
            ∧ ((connect W c d s).2.2 = .ret (.ok client) ↔
                ∃ r2, (W.run s3.world conn
                  ["/login", "=name=" ++ d.User, "=response=" ++ challengeResponse b d.Password]).2
                    = .ok r2)
            ∧ ∀ e, (W.run s3.world conn
                  ["/login", "=name=" ++ d.User, "=response=" ++ challengeResponse b d.Password]).2
                    = .error e →
                (connect W c d s).2.2 = .ret (.error e))
      ∧ (∀ ret e, done.Map.lookup "ret" = some ret → hexDecodeString ret = .error e →
          connect W c d s = (s3, d1, .ret (.error (.invalidRet e)))
            ∧ loginRequests (connect W c d s).1.calls = loginRequests s.calls
                ++ [["/login", "=name=" ++ d.User, "=password=" ++ d.Password]]
            ∧ (connect W c d s).1.calls = s.calls
                ++ [.dial (d.Address ++ ":" ++ d1.Port) (some conn),
                    .run conn ["/login", "=name=" ++ d.User, "=password=" ++ d.Password]]) := by
  have hd1 : d1 = { d with Port := dialPort c d } := by
    rw [← connectDial_dev W c d s, hdial]
  have hport : d1.Port = dialPort c d := by rw [hd1]
  have hcl : client = ⟨conn⟩ := by
    have := (opNewClient_frame W conn s1).2.2 client
    rw [hnew] at this
    exact this rfl
  subst hcl
  have hreq : ["/login", "=name=" ++ d1.User, "=password=" ++ d1.Password]
      = ["/login", "=name=" ++ d.User, "=password=" ++ d.Password] := by rw [hd1]
  have hresp : ∀ b, ["/login", "=name=" ++ d1.User, "=response=" ++ challengeResponse b d1.Password]
      = ["/login", "=name=" ++ d.User, "=response=" ++ challengeResponse b d.Password] := by
    intro b; rw [hd1]
  have hs1 : s1.calls = s.calls ++ [.dial (d.Address ++ ":" ++ dialPort c d) (some conn)] := by
    have := connectDial_calls W c d s
    rw [hdial] at this
    exact this
  have hs2 : s2.calls = s1.calls := by
    have := (opNewClient_frame W conn s1).2.1
    rw [hnew] at this
    exact this
  have hs3 : s3.calls = s.calls ++ [.dial (d.Address ++ ":" ++ d1.Port) (some conn),
      .run conn ["/login", "=name=" ++ d.User, "=password=" ++ d.Password]] := by
    have : (opRun W ⟨conn⟩ ["/login", "=name=" ++ d.User, "=password=" ++ d.Password] s2).1
        = s3 := by rw [hlogin]
    rw [← this, hport]
    simp [opRun, hs2, hs1]
  have hl3 : loginRequests s3.calls = loginRequests s.calls
      ++ [["/login", "=name=" ++ d.User, "=password=" ++ d.Password]] := by
    rw [hs3]
    simp [loginRequests]
  refine ⟨?_, ?_, ?_⟩
  · intro hret
    have hc : connect W c d s = (s3, d1, .ret (.ok ⟨conn⟩)) := by
      simp [connect, hdial, hnew, connectLogin, hreq, hlogin, hdone, hret]
    exact ⟨hc, by rw [hc]; exact hl3, by rw [hc]; exact hs3⟩
  · intro ret b hret hb
    have hc : connect W c d s =
        ((connectChallenge W d1 ⟨conn⟩ ret s3).1, d1,
          (connectChallenge W d1 ⟨conn⟩ ret s3).2) := by
      simp [connect, hdial, hnew, connectLogin, hreq, hlogin, hdone, hret]
    rw [hc]
    simp only [connectChallenge, hb, hresp]
    have hrun : (opRun W ⟨conn⟩
        ["/login", "=name=" ++ d.User, "=response=" ++ challengeResponse b d.Password] s3).2
        = (W.run s3.world conn
          ["/login", "=name=" ++ d.User, "=response=" ++ challengeResponse b d.Password]).2 := rfl
    rw [← hrun]
    cases h2 : (opRun W ⟨conn⟩
        ["/login", "=name=" ++ d.User, "=response=" ++ challengeResponse b d.Password] s3).2 with
    | error e =>
      refine ⟨rfl, ?_, ?_, by simp, by simp⟩
      · simp only [opRun, loginRequests_append, hl3]
        simp [loginRequests]
      · simp [opRun, hs3]
    | ok r2 =>
      refine ⟨rfl, ?_, ?_, by simp, by simp⟩
      · simp only [opRun, loginRequests_append, hl3]
        simp [loginRequests]
      · simp [opRun, hs3]
  · intro ret e hret he
    have hc : connect W c d s = (s3, d1, .ret (.error (.invalidRet e))) := by
      simp [connect, hdial, hnew, connectLogin, hreq, hlogin, hdone, hret, connectChallenge, he]
    exact ⟨hc, by rw [hc]; exact hl3, by rw [hc]; exact hs3⟩

theorem collectLoop_run (cos : List (RouterOSCollector σ)) (i : Nat) (d : Device) (cl : Client)
    (s : St σ) :
    ∃ evs : List CollectCall,
      (collectLoop cos i d cl s).1.calls = s.calls ++ evs.map Event.collect
        ∧ (collectLoop cos i d cl s).1.ch = s.ch ++ evs.flatMap (·.sent)
        ∧ LoopRun cos i d cl (collectLoop cos i d cl s).2 evs := by
  induction cos generalizing i s with
  | nil =>
    refine ⟨[], by simp [collectLoop], by simp [collectLoop], ?_⟩
    exact ⟨rfl, by simp, by simp, by simp, Or.inl ⟨rfl, rfl, by simp⟩⟩
  | cons co rest ih =>
    simp only [collectLoop]
    cases hr : (co.collect s.world d cl).2.2 with
    | some e =>
      refine ⟨[⟨i, d, cl.rwc, (co.collect s.world d cl).2.1, some e⟩], by simp, by simp, ?_⟩
      refine ⟨rfl, by simp, by simp, ?_, Or.inr ⟨e, [], _, rfl, rfl, rfl, by simp⟩⟩
      intro ev hev
      simp only [List.mem_singleton] at hev
      subst hev
      exact ⟨co, s.world, by simp, by rw [← hr]⟩
    | none =>
      simp only
      obtain ⟨evs, h1, h2, h3⟩ := ih (i + 1)
        { world := (co.collect s.world d cl).1, ch := s.ch ++ (co.collect s.world d cl).2.1,
          calls := s.calls ++ [.collect ⟨i, d, cl.rwc, (co.collect s.world d cl).2.1, none⟩] }
      refine ⟨⟨i, d, cl.rwc, (co.collect s.world d cl).2.1, none⟩ :: evs, ?_, ?_, ?_⟩
      · rw [h1]; simp
      · rw [h2]; simp
      · refine ⟨?_, ?_, ?_, ?_, ?_⟩
        · simp [List.range'_succ, h3.idx]
        · simpa using h3.le
        · intro ev hev
          rcases List.mem_cons.mp hev with h | h
          · subst h; exact ⟨rfl, rfl⟩
          · exact h3.session ev h
        · intro ev hev
          rcases List.mem_cons.mp hev with h | h
          · subst h
            exact ⟨co, s.world, by simp, by rw [← hr]⟩
          · obtain ⟨co1, w, hco, hw⟩ := h3.returned ev h
            have hi : i + 1 ≤ ev.idx := by
              have hmem : ev.idx ∈ evs.map (·.idx) := List.mem_map_of_mem _ h
              rw [h3.idx] at hmem
              exact (List.mem_range'_1.mp hmem).1
            refine ⟨co1, w, ?_, hw⟩
            have : ev.idx - i = (ev.idx - (i + 1)) + 1 := by omega
            rw [this]
            simpa using hco
        · rcases h3.result with ⟨he, hl, hall⟩ | ⟨e, before, last, he, hevs, hlast, hall⟩
          · refine Or.inl ⟨he, by simp [hl], ?_⟩
            intro ev hev
            rcases List.mem_cons.mp hev with h | h
            · subst h; rfl
            · exact hall ev h
          · refine Or.inr ⟨e, _ :: before, last, he, by rw [hevs]; rfl, hlast, ?_⟩
            intro ev hev
            rcases List.mem_cons.mp hev with h | h
            · subst h; rfl
            · exact hall ev h

/-- C4: with the session `cl` established, `connectAndCollect` invokes the
collectors in list order on that session, each at most once: the invocations
`evs` have the indices `0, 1, ...` of a leading part of the pipeline, each on
`cl` with the device, each recording what that collector returned; the channel
keeps what it held and receives after it what they sent, in that order; then
the session is closed.  Either no invocation returned an error, all collectors
were invoked and the result is success, or the last invocation is the only
one that returned an error and that error is the result. -/
theorem connectAndCollect_pipeline (W : World σ) (c : Collector σ) (d d1 : Device)
    (s s1 : St σ) (cl : Client)
    (hconn : connect W c d s = (s1, d1, .ret (.ok cl))) :
    ∃ (evs : List CollectCall) (err : Option Err),
      (connectAndCollect W c d s).2.2 = .ret err
        ∧ (connectAndCollect W c d s).1.calls =
            s1.calls ++ evs.map Event.collect ++ [.close cl.rwc]
        ∧ (connectAndCollect W c d s).1.ch = s.ch ++ evs.flatMap (·.sent)
        ∧ LoopRun c.collectors 0 d1 cl err evs := by
  obtain ⟨evs, h1, h2, h3⟩ := collectLoop_run c.collectors 0 d1 cl s1
  have hch : s1.ch = s.ch := by
    have := connect_ch W c d s
    rw [hconn] at this
    exact this
  refine ⟨evs, (collectLoop c.collectors 0 d1 cl s1).2, ?_, ?_, ?_, h3⟩
  · simp [connectAndCollect, hconn]
  · simp [connectAndCollect, hconn, opClose, h1]
  · simp [connectAndCollect, hconn, opClose, h2, hch]

theorem connectChallenge_ret (W : World σ) (d : Device) (cl : Client) (ret : String)
    (s : St σ) : ∃ r, (connectChallenge W d cl ret s).2 = .ret r := by
  simp only [connectChallenge]
  cases hexDecodeString ret with
  | error e => exact ⟨_, rfl⟩
  | ok b =>
    simp only
    cases (opRun W cl
      ["/login", "=name=" ++ d.User, "=response=" ++ challengeResponse b d.Password] s).2 <;>
      exact ⟨_, rfl⟩

theorem connectLogin_ret (W : World σ) (hW : W.Terminated) (d : Device) (cl : Client)
    (s : St σ) : ∃ r, (connectLogin W d cl s).2 = .ret r := by
  simp only [connectLogin]
  cases h : (opRun W cl ["/login", "=name=" ++ d.User, "=password=" ++ d.Password] s).2 with
  | error e => exact ⟨_, rfl⟩
  | ok reply =>
    simp only
    cases hd : reply.Done with
    | none => exact absurd hd (hW _ _ _ _ h)
    | some done =>
      simp only
      cases done.Map.lookup "ret" with
      | none => simp
      | some ret => exact connectChallenge_ret W d cl ret _

theorem connect_ret (W : World σ) (hW : W.Terminated) (c : Collector σ) (d : Device)
    (s : St σ) : ∃ r, (connect W c d s).2.2 = .ret r := by
  simp only [connect]
  cases (connectDial W c d s).2.2 with
  | error e => exact ⟨_, rfl⟩
  | ok conn =>
    simp only
    cases (opNewClient W conn (connectDial W c d s).1).2 with
    | error e => exact ⟨_, rfl⟩
    | ok client => exact connectLogin_ret W hW _ _ _

theorem collectCalls_append (xs ys : List Event) :
    collectCalls (xs ++ ys) = collectCalls xs ++ collectCalls ys := by
  simp [collectCalls]

theorem dialAttempts_append (xs ys : List Event) :
    dialAttempts (xs ++ ys) = dialAttempts xs ++ dialAttempts ys := by
  simp [dialAttempts]

theorem closed_append (xs ys : List Event) : closed (xs ++ ys) = closed xs ++ closed ys := by
  simp [closed]

theorem collectCalls_run (conn : Nat) (sents : List (List String)) :
    collectCalls (sents.map (Event.run conn)) = [] := by
  induction sents with
  | nil => rfl
  | cons x xs ih => simp [collectCalls]

theorem dialAttempts_run (conn : Nat) (sents : List (List String)) :
    dialAttempts (sents.map (Event.run conn)) = [] := by
  induction sents with
  | nil => rfl
  | cons x xs ih => simp [dialAttempts]

theorem closed_run (conn : Nat) (sents : List (List String)) :
    closed (sents.map (Event.run conn)) = [] := by
  induction sents with
  | nil => rfl
  | cons x xs ih => simp [closed]

theorem collectCalls_collect (evs : List CollectCall) :
    collectCalls (evs.map Event.collect) = evs := by
  induction evs with
  | nil => rfl
  | cons x xs ih => simpa [collectCalls] using ih

theorem dialAttempts_collect (evs : List CollectCall) :
    dialAttempts (evs.map Event.collect) = [] := by
  induction evs with
  | nil => rfl
  | cons x xs ih => simp [dialAttempts]

theorem closed_collect (evs : List CollectCall) : closed (evs.map Event.collect) = [] := by
  induction evs with
  | nil => rfl
  | cons x xs ih => simp [closed]

/-- The calls and the channel after `connectAndCollect`, whatever its outcome:
one dial attempt, the channel extended by what the invoked collectors sent,
each collector given the device under its unchanged name. -/
theorem connectAndCollect_frame (W : World σ) (c : Collector σ) (d : Device) (s : St σ) :
    ∃ new : List Event,
      (connectAndCollect W c d s).1.calls = s.calls ++ new
        ∧ (connectAndCollect W c d s).1.ch = s.ch ++ (collectCalls new).flatMap (·.sent)
        ∧ (∃ oc, dialAttempts new = [oc])
        ∧ (∀ ev ∈ collectCalls new, ev.dev = (connectAndCollect W c d s).2.1
            ∧ ∃ co ∈ c.collectors, ∃ w cl, (co.collect w ev.dev cl).2.1 = ev.sent)
        ∧ (connectAndCollect W c d s).2.1 = { d with Port := dialPort c d } := by
  obtain ⟨oc, sents, hcalls, _⟩ := connect_calls W c d s
  have hch := connect_ch W c d s
  have hdev := connect_dev W c d s
  simp only [connectAndCollect]
  cases hr : (connect W c d s).2.2 with
  | abort a =>
    refine ⟨_, hcalls, ?_, ⟨oc, ?_⟩, ?_, hdev⟩
    · simp [collectCalls, collectCalls_run, hch]
    · simp [dialAttempts, dialAttempts_run]
    · simp [collectCalls, collectCalls_run]
  | ret r =>
    cases r with
    | error e =>
      refine ⟨_, hcalls, ?_, ⟨oc, ?_⟩, ?_, hdev⟩
      · simp [collectCalls, collectCalls_run, hch]
      · simp [dialAttempts, dialAttempts_run]
      · simp [collectCalls, collectCalls_run]
    | ok cl =>
      obtain ⟨evs, h1, h2, h3⟩ :=
        collectLoop_run c.collectors 0 (connect W c d s).2.1 cl (connect W c d s).1
      refine ⟨.dial (d.Address ++ ":" ++ dialPort c d) oc :: sents.map (Event.run (oc.getD 0))
          ++ evs.map Event.collect ++ [.close cl.rwc], ?_, ?_, ⟨oc, ?_⟩, ?_, hdev⟩
      · simp [opClose, h1, hcalls]
      · simp only [opClose, h2, hch]
        rw [collectCalls_append, collectCalls_append]
        simp [collectCalls_collect]
        simp [collectCalls, collectCalls_run]
      · rw [dialAttempts_append, dialAttempts_append]
        simp [dialAttempts_collect]
        simp [dialAttempts, dialAttempts_run]
      · intro ev hev
        rw [collectCalls_append, collectCalls_append] at hev
        simp [collectCalls_collect] at hev
        simp [collectCalls, collectCalls_run] at hev
        obtain ⟨co, w, hco, hw⟩ := h3.returned ev hev
        refine ⟨(h3.session ev hev).2, co, List.getElem?_mem hco, w, cl, ?_⟩
        rw [(h3.session ev hev).2]
        exact congrArg Prod.fst hw

theorem Work.run_call {α : Type} (op : St σ → St σ × α) (k : α → Work σ) (s : St σ) :
    (Work.call op k).run s = (k (op s).2).run (op s).1 := rfl

theorem Work.run_sendAll (ms : List Metric) (k : Work σ) (s : St σ) :
    (Work.sendAll ms k).run s = k.run { s with ch := s.ch ++ ms } := by
  induction ms generalizing s with
  | nil => simp [Work.sendAll]
  | cons m ms ih =>
    simp only [Work.sendAll, Work.send, Work.run]
    rw [ih]
    simp

theorem connectChallengeW_run (W : World σ) (d : Device) (cl : Client) (ret : String)
    (k : Except Err Client → Work σ) (s : St σ) :
    (connectChallengeW W d cl ret k).run s = Work.after (connectChallenge W d cl ret s) k := by
  simp only [connectChallengeW, connectChallenge]
  cases hexDecodeString ret with
  | error e => rfl
  | ok b =>
    simp only [Work.run_call]
    cases (opRun W cl ["/login", "=name=" ++ d.User,
      "=response=" ++ challengeResponse b d.Password] s).2 <;> rfl

theorem connectLoginW_run (W : World σ) (d : Device) (cl : Client)
    (k : Except Err Client → Work σ) (s : St σ) :
    (connectLoginW W d cl k).run s = Work.after (connectLogin W d cl s) k := by
  simp only [connectLoginW, connectLogin, Work.run_call]
  cases (opRun W cl ["/login", "=name=" ++ d.User, "=password=" ++ d.Password] s).2 with
  | error e => rfl
  | ok reply =>
    simp only
    cases hd : reply.Done with
    | none => rfl
    | some done =>
      simp only
      cases done.Map.lookup "ret" with
      | none => simp [Work.after]
      | some ret => exact connectChallengeW_run W d cl ret k _

theorem connectClientW_run (W : World σ) (d : Device) (k : Except Err Client → Work σ)
    (r : Except Err Nat) (s : St σ) :
    (connectClientW W d k r).run s
      = match r with
        | .error e => (k (.error e)).run s
        | .ok conn =>
          match (opNewClient W conn s).2 with
          | .error e => (k (.error e)).run (opNewClient W conn s).1
          | .ok client => Work.after (connectLogin W d client (opNewClient W conn s).1) k := by
  cases r with
  | error e => rfl
  | ok conn =>
    simp only [connectClientW, Work.run_call]
    cases (opNewClient W conn s).2 with
    | error e => rfl
    | ok client => exact connectLoginW_run W d client k _

theorem connectW_run (W : World σ) (c : Collector σ) (d : Device)
    (k : Device → Except Err Client → Work σ) (s : St σ) :
    (connectW W c d k).run s
      = Work.after ((connect W c d s).1, (connect W c d s).2.2) (k (connect W c d s).2.1) := by
  have key : ∀ (d1 : Device) (dl : St σ × Except Err Nat),
      connectDial W c d s = (dl.1, d1, dl.2) →
      (connectClientW W d1 (k d1) dl.2).run dl.1
        = Work.after ((connect W c d s).1, (connect W c d s).2.2) (k (connect W c d s).2.1) := by
    intro d1 dl h
    rw [connectClientW_run]
    simp only [connect, h]
    cases dl.2 with
    | error e => rfl
    | ok conn =>
      simp only
      cases (opNewClient W conn dl.1).2 with
      | error e => rfl
      | ok client => rfl
  unfold connectW
  split
  · rename_i htls
    simp only [Work.run_call]
    exact key _ _ (by simp [connectDial, htls])
  · rename_i htls
    simp only [Work.run_call]
    exact key _ _ (by simp [connectDial, htls])

theorem collectLoopW_run (cos : List (RouterOSCollector σ)) (i : Nat) (d : Device) (cl : Client)
    (k : Option Err → Work σ) (s : St σ) :
    (collectLoopW cos i d cl k).run s
      = (k (collectLoop cos i d cl s).2).run (collectLoop cos i d cl s).1 := by
  induction cos generalizing i s with
  | nil => rfl
  | cons co rest ih =>
    simp only [collectLoopW, collectLoop, Work.run, Work.run_sendAll]
    cases (co.collect s.world d cl).2.2 with
    | some e => rfl
    | none => simp only; rw [ih]

theorem connectAndCollectW_run (W : World σ) (c : Collector σ) (d : Device)
    (k : Device → Option Err → Work σ) (s : St σ) :
    (connectAndCollectW W c d k).run s
      = Work.after ((connectAndCollect W c d s).1, (connectAndCollect W c d s).2.2)
          (k (connectAndCollect W c d s).2.1) := by
  simp only [connectAndCollectW, connectW_run, connectAndCollect, Work.after]
  cases (connect W c d s).2.2 with
  | abort a => rfl
  | ret r =>
    cases r with
    | error e => rfl
    | ok cl =>
      simp only [collectLoopW_run, Work.run_call]

/-- The goroutine of a device, run without interruption, is `collectForDevice`. -/
theorem collectForDeviceW_run (W : World σ) (c : Collector σ) (d : Device) (s : St σ) :
    (collectForDeviceW W c d).run s = collectForDevice W c d s := by
  simp only [collectForDeviceW, Work.run_call, connectAndCollectW_run, collectForDevice,
    Work.after]
  cases (connectAndCollect W c d { s with world := (W.now s.world).1 }).2.2 with
  | abort a => rfl
  | ret err => simp [Work.send, Work.run]

theorem Work.Sends.mono {t : Work σ} {R R1 : List Metric → Prop} (h : ∀ u, R u → R1 u)
    (ht : t.Sends R) : t.Sends R1 := by
  induction t generalizing R R1 with
  | done out =>
    cases out with
    | ret u => exact h _ ht
    | abort a => exact ht
  | act upd next ih =>
    intro s
    obtain ⟨ms, h1, h2⟩ := ht s
    exact ⟨ms, h1, ih s (fun u hu => h _ hu) h2⟩

theorem Work.sends_call {α : Type} {op : St σ → St σ × α} {k : α → Work σ}
    {R : List Metric → Prop} (h : ∀ s, (op s).1.ch = s.ch ∧ (k (op s).2).Sends R) :
    (Work.call op k).Sends R := by
  intro s
  exact ⟨[], by simp [(h s).1], by simpa using (h s).2⟩

theorem Work.sends_send {m : Metric} {k : Work σ} {R : List Metric → Prop}
    (h : k.Sends (fun rest => R (m :: rest))) : (Work.send m k).Sends R := by
  intro s
  exact ⟨[m], rfl, by simpa using h⟩

theorem Work.sends_sendAll {ms : List Metric} {k : Work σ} {R : List Metric → Prop}
    (h : k.Sends (fun rest => R (ms ++ rest))) : (Work.sendAll ms k).Sends R := by
  induction ms generalizing R with
  | nil => simpa [Work.sendAll] using h
  | cons m ms ih =>
    simp only [Work.sendAll]
    exact Work.sends_send (ih (by simpa using h))

theorem connectChallengeW_sends (W : World σ) (d : Device) (cl : Client) (ret : String)
    (k : Except Err Client → Work σ) (R : List Metric → Prop) (hk : ∀ r, (k r).Sends R) :
    (connectChallengeW W d cl ret k).Sends R := by
  simp only [connectChallengeW]
  cases hexDecodeString ret with
  | error e => exact hk _
  | ok b =>
    refine Work.sends_call fun s => ⟨rfl, ?_⟩
    cases (opRun W cl ["/login", "=name=" ++ d.User,
      "=response=" ++ challengeResponse b d.Password] s).2 <;> exact hk _

theorem connectLoginW_sends (W : World σ) (hW : W.Terminated) (d : Device) (cl : Client)
    (k : Except Err Client → Work σ) (R : List Metric → Prop) (hk : ∀ r, (k r).Sends R) :
    (connectLoginW W d cl k).Sends R := by
  refine Work.sends_call fun s => ⟨rfl, ?_⟩
  cases h : (opRun W cl ["/login", "=name=" ++ d.User, "=password=" ++ d.Password] s).2 with
  | error e => exact hk _
  | ok reply =>
    simp only
    cases hd : reply.Done with
    | none => exact absurd hd (hW _ _ _ _ h)
    | some done =>
      simp only
      cases done.Map.lookup "ret" with
      | none => simp only [Option.isSome_some, if_true]; exact hk _
      | some ret => exact connectChallengeW_sends W d cl ret k R hk

theorem connectW_sends (W : World σ) (hW : W.Terminated) (c : Collector σ) (d : Device)
    (k : Device → Except Err Client → Work σ) (R : List Metric → Prop)
    (hk : ∀ r, (k { d with Port := dialPort c d } r).Sends R) :
    (connectW W c d k).Sends R := by
  have key : ∀ (r : Except Err Nat),
      (connectClientW W { d with Port := dialPort c d } (k { d with Port := dialPort c d })
        r).Sends R := by
    intro r
    cases r with
    | error e => exact hk _
    | ok conn =>
      simp only [connectClientW]
      refine Work.sends_call fun s => ⟨(opNewClient_frame W conn s).1, ?_⟩
      cases (opNewClient W conn s).2 with
      | error e => exact hk _
      | ok client => exact connectLoginW_sends W hW _ client _ R hk
  unfold connectW
  by_cases htls : c.enableTLS = true <;> by_cases hp : d.Port = ""
  · have hdp : dialPort c d = apiPortTLS := by simp [dialPort, htls, hp]
    simp only [htls, hp, not_true_eq_false, if_false, if_true]
    rw [← hdp]
    exact Work.sends_call fun s => ⟨rfl, key _⟩
  · have hdp : { d with Port := dialPort c d } = d := by simp [dialPort, hp]
    simp only [htls, hp, not_true_eq_false, if_false]
    rw [hdp] at key
    exact Work.sends_call fun s => ⟨rfl, key _⟩
  · have hdp : dialPort c d = apiPort := by simp [dialPort, htls, hp]
    simp only [htls, hp, not_false_eq_true, if_true]
    rw [← hdp]
    exact Work.sends_call fun s => ⟨rfl, key _⟩
  · have hdp : { d with Port := dialPort c d } = d := by simp [dialPort, hp]
    simp only [htls, hp, not_false_eq_true, if_true, if_false]
    rw [hdp] at key
    exact Work.sends_call fun s => ⟨rfl, key _⟩

theorem collectLoopW_sends (cos : List (RouterOSCollector σ)) (i : Nat) (d : Device)
    (cl : Client) (k : Option Err → Work σ) (R : List Metric → Prop)
    (hk : ∀ err, (k err).Sends R) :
    (collectLoopW cos i d cl k).Sends (fun u => ∃ sent rest, u = sent ++ rest ∧ R rest
      ∧ ∀ m ∈ sent, ∃ co ∈ cos, ∃ w, m ∈ (co.collect w d cl).2.1) := by
  induction cos generalizing i with
  | nil =>
    simp only [collectLoopW]
    exact Work.Sends.mono (fun u hu => ⟨[], u, rfl, hu, by simp⟩) (hk none)
  | cons co rest ih =>
    simp only [collectLoopW]
    intro s
    refine ⟨[], by simp, ?_⟩
    simp only [List.nil_append]
    refine Work.sends_sendAll ?_
    cases (co.collect s.world d cl).2.2 with
    | some e =>
      refine Work.Sends.mono (fun u hu => ?_) (hk (some e))
      refine ⟨(co.collect s.world d cl).2.1, u, rfl, hu, ?_⟩
      intro m hm
      exact ⟨co, List.mem_cons_self _ _, s.world, hm⟩
    | none =>
      refine Work.Sends.mono (fun u hu => ?_) (ih (i + 1))
      obtain ⟨sent, rest1, h1, h2, h3⟩ := hu
      refine ⟨(co.collect s.world d cl).2.1 ++ sent, rest1, by rw [h1, List.append_assoc], h2, ?_⟩
      intro m hm
      rcases List.mem_append.mp hm with hm | hm
      · exact ⟨co, List.mem_cons_self _ _, s.world, hm⟩
      · obtain ⟨co1, hco1, w, hw⟩ := h3 m hm
        exact ⟨co1, List.mem_cons_of_mem _ hco1, w, hw⟩

theorem scrapeDesc_names :
    scrapeDurationDesc = "mikrotik_scrape_collector_duration_seconds"
      ∧ scrapeSuccessDesc = "mikrotik_scrape_collector_success" := by
  decide

theorem connectAndCollectW_sends (W : World σ) (hW : W.Terminated) (c : Collector σ)
    (d : Device) (k : Device → Option Err → Work σ) (R : List Metric → Prop)
    (hk : ∀ err, (k { d with Port := dialPort c d } err).Sends R) :
    (connectAndCollectW W c d k).Sends (fun u => ∃ sent rest, u = sent ++ rest ∧ R rest
      ∧ ∀ m ∈ sent, ∃ co ∈ c.collectors, ∃ w cl,
          m ∈ (co.collect w { d with Port := dialPort c d } cl).2.1) := by
  simp only [connectAndCollectW]
  refine connectW_sends W hW c d _ _ ?_
  intro r
  cases r with
  | error e =>
    exact Work.Sends.mono (fun u hu => ⟨[], u, rfl, hu, by simp⟩) (hk (some e))
  | ok cl =>
    simp only
    refine Work.Sends.mono (fun u hu => ?_)
      (collectLoopW_sends c.collectors 0 { d with Port := dialPort c d } cl _ R ?_)
    · obtain ⟨sent, rest, h1, h2, h3⟩ := hu
      refine ⟨sent, rest, h1, h2, ?_⟩
      intro m hm
      obtain ⟨co, hco, w, hw⟩ := h3 m hm
      exact ⟨co, hco, w, cl, hw⟩
    · intro err
      exact Work.sends_call fun s => ⟨rfl, hk err⟩

/-- The goroutine of a device, whatever the other goroutines do between its
actions: it returns, and what it sends is what its collectors sent followed by
its duration sample and its success sample. -/
theorem collectForDeviceW_sends (W : World σ) (hW : W.Terminated) (c : Collector σ)
    (d : Device) : (collectForDeviceW W c d).Sends (UnitBlock c d) := by
  simp only [collectForDeviceW]
  refine Work.sends_call fun s => ⟨rfl, ?_⟩
  refine Work.Sends.mono (fun u hu => ?_)
    (connectAndCollectW_sends W hW c d _
      (fun rest => ∃ (ns : Int) (v : Nat),
        rest = [⟨"mikrotik_scrape_collector_duration_seconds", .seconds ns, [d.Name]⟩,
                ⟨"mikrotik_scrape_collector_success", .const v, [d.Name]⟩] ∧ v ≤ 1) ?_)
  · obtain ⟨sent, rest, h1, ⟨ns, v, h2, h3⟩, h4⟩ := hu
    exact ⟨sent, ns, v, by rw [h1, h2], h3, h4⟩
  · intro err
    refine Work.sends_call fun s1 => ⟨rfl, ?_⟩
    refine Work.sends_send (Work.sends_send ?_)
    simp only [Work.Sends, scrapeDesc_names.1, scrapeDesc_names.2]
    exact ⟨_, _, rfl, by split <;> omega⟩

theorem Work.Sends.run {t : Work σ} {R : List Metric → Prop} (ht : t.Sends R) (s : St σ) :
    ∃ u, (t.run s).2 = .ret () ∧ (t.run s).1.ch = s.ch ++ u ∧ R u := by
  induction t generalizing R s with
  | done out =>
    cases out with
    | ret u => exact ⟨[], rfl, by simp [Work.run], ht⟩
    | abort a => exact absurd ht (by simp [Work.Sends])
  | act upd next ih =>
    obtain ⟨ms, h1, h2⟩ := ht s
    obtain ⟨u, i1, i2, i3⟩ := ih s h2 (upd s)
    exact ⟨ms ++ u, i1, by simp only [Work.run]; rw [i2, h1, List.append_assoc], i3⟩

theorem set_getElem?_same {α : Type} (l : List α) (i : Nat) (a : α) (h : l[i]? = some a) :
    l.set i a = l := by
  induction l generalizing i with
  | nil => rfl
  | cons x xs ih =>
    cases i with
    | zero => simp at h; simp [h]
    | succ i => simp at h; simp [ih i h]

theorem getElem?_set_same {α : Type} (l : List α) (i : Nat) (a b : α) (h : l[i]? = some a) :
    (l.set i b)[i]? = some b := by
  induction l generalizing i with
  | nil => simp at h
  | cons x xs ih =>
    cases i with
    | zero => simp
    | succ i => simp at h; simpa using ih i h

theorem forall₂_getElem? {α β : Type} {P : α → β → Prop} {l₁ : List α} {l₂ : List β}
    (h : List.Forall₂ P l₁ l₂) (i : Nat) (a : α) (ha : l₁[i]? = some a) :
    ∃ b, l₂[i]? = some b ∧ P a b := by
  induction h generalizing i with
  | nil => simp at ha
  | cons hab _ ih =>
    cases i with
    | zero =>
      simp at ha
      subst ha
      exact ⟨_, by simp, hab⟩
    | succ i =>
      simp at ha
      simpa using ih i ha

theorem forall₂_set {α β : Type} {P : α → β → Prop} {l₁ : List α} {l₂ : List β}
    (h : List.Forall₂ P l₁ l₂) (i : Nat) (a : α) (b : β) (hab : P a b) :
    List.Forall₂ P (l₁.set i a) (l₂.set i b) := by
  induction h generalizing i with
  | nil => exact List.Forall₂.nil
  | cons hxy hrest ih =>
    cases i with
    | zero => exact List.Forall₂.cons hab hrest
    | succ i => exact List.Forall₂.cons hxy (ih i)

theorem Shuffle.cons_nil {α : Type} {ls : List (List α)} {out : List α} (h : Shuffle ls out) :
    Shuffle ([] :: ls) out := by
  induction h with
  | done ls hall =>
    refine Shuffle.done _ ?_
    intro l hl
    rcases List.mem_cons.mp hl with rfl | hl
    · rfl
    · exact hall l hl
  | take ls i x l out hi _ ih =>
    exact Shuffle.take ([] :: ls) (i + 1) x l out (by simpa using hi) (by simpa using ih)

theorem Shuffle.front {α : Type} {ls : List (List α)} {out : List α} (h : Shuffle ls out)
    (i : Nat) (l : List α) (hi : ls[i]? = some l) (ms : List α) :
    Shuffle (ls.set i (ms ++ l)) (ms ++ out) := by
  induction ms with
  | nil =>
    simp only [List.nil_append]
    rw [set_getElem?_same ls i l hi]
    exact h
  | cons x ms ih =>
    refine Shuffle.take _ i x (ms ++ l) (ms ++ out) (getElem?_set_same ls i l _ hi) ?_
    rw [List.set_set]
    exact ih

theorem Shuffle.flatten {α : Type} (units : List (List α)) : Shuffle units units.flatten := by
  induction units with
  | nil => exact Shuffle.done _ (by simp)
  | cons u us ih =>
    have := Shuffle.front (Shuffle.cons_nil ih) 0 [] (by simp) u
    simpa using this

theorem runAll_sends {ts : List (Work σ)} {Rs : List (List Metric → Prop)}
    (h : List.Forall₂ (fun t R => t.Sends R) ts Rs) (s : St σ) :
    ∃ units : List (List Metric), (runAll ts s).2 = .ret ()
      ∧ (runAll ts s).1.ch = s.ch ++ units.flatten
      ∧ List.Forall₂ (fun R u => R u) Rs units := by
  induction h generalizing s with
  | nil => exact ⟨[], rfl, by simp [runAll], List.Forall₂.nil⟩
  | cons ht _ ih =>
    obtain ⟨u, h1, h2, h3⟩ := ht.run s
    obtain ⟨units, i1, i2, i3⟩ := ih (Work.run _ s).1
    refine ⟨u :: units, ?_, ?_, List.Forall₂.cons h3 i3⟩
    · simp only [runAll, h1]; exact i1
    · simp only [runAll, h1]
      rw [i2, h2]
      simp

/-- Goroutines that each return and send what `Rs` says do so under every
schedule: the process is not stopped and the channel receives an interleaving
of what each of them sends. -/
theorem interleave_sends (sched : List Nat) {ts : List (Work σ)}
    {Rs : List (List Metric → Prop)} (h : List.Forall₂ (fun t R => t.Sends R) ts Rs)
    (s : St σ) :
    ∃ (units : List (List Metric)) (new : List Metric),
      (interleave sched ts s).2 = .ret ()
        ∧ (interleave sched ts s).1.ch = s.ch ++ new
        ∧ Shuffle units new
        ∧ List.Forall₂ (fun R u => R u) Rs units := by
  induction sched generalizing ts Rs s with
  | nil =>
    obtain ⟨units, h1, h2, h3⟩ := runAll_sends h s
    exact ⟨units, units.flatten, h1, h2, Shuffle.flatten units, h3⟩
  | cons i sched ih =>
    simp only [interleave]
    cases hi : ts[i]? with
    | none => exact ih h s
    | some t =>
      cases t with
      | done out => exact ih h s
      | act upd next =>
        obtain ⟨R, hR, hsends⟩ := forall₂_getElem? h i _ hi
        obtain ⟨ms, hms, hnext⟩ := hsends s
        have hstep : ∃ (units : List (List Metric)) (new : List Metric),
            (interleave sched (ts.set i (next s)) (upd s)).2 = .ret ()
              ∧ (interleave sched (ts.set i (next s)) (upd s)).1.ch = s.ch ++ new
              ∧ Shuffle units new
              ∧ List.Forall₂ (fun R u => R u) Rs units := by
          obtain ⟨units, new, i1, i2, i3, i4⟩ :=
            ih (forall₂_set h i (next s) (fun rest => R (ms ++ rest)) hnext) (upd s)
          obtain ⟨l, hl, hRl⟩ := forall₂_getElem? i4 i _ (getElem?_set_same Rs i R _ hR)
          refine ⟨units.set i (ms ++ l), ms ++ new, i1, ?_, i3.front i l hl ms, ?_⟩
          · rw [i2, hms, List.append_assoc]
          · have := forall₂_set i4 i R (ms ++ l) hRl
            rw [List.set_set, set_getElem?_same Rs i R hR] at this
            exact this
        simp only
        cases hn : next s with
        | done out =>
          cases out with
          | abort a =>
            rw [hn] at hnext
            exact absurd hnext (by simp [Work.Sends])
          | ret u =>
            simp only
            rw [hn] at hstep
            exact hstep
        | act u n =>
          simp only
          rw [hn] at hstep
          exact hstep

/-- The unit of work of a device, when `connectAndCollect` returns. -/
theorem collectForDevice_shape (W : World σ) (hW : W.Terminated) (c : Collector σ)
    (d : Device) (s : St σ) :
    ∃ (err : Option Err) (new : List Event),
      (connectAndCollect W c d { s with world := (W.now s.world).1 }).2.2 = .ret err
        ∧ (collectForDevice W c d s).2 = .ret ()
        ∧ (collectForDevice W c d s).1.calls = s.calls ++ new
        ∧ (collectForDevice W c d s).1.ch = s.ch ++ (collectCalls new).flatMap (·.sent)
            ++ [⟨"mikrotik_scrape_collector_duration_seconds",
                  .seconds ((W.now (connectAndCollect W c d
                    { s with world := (W.now s.world).1 }).1.world).2 - (W.now s.world).2),
                  [d.Name]⟩,
                ⟨"mikrotik_scrape_collector_success", .const (if err = none then 1 else 0),
                  [d.Name]⟩]
        ∧ (∃ oc, dialAttempts new = [oc])
        ∧ ∀ ev ∈ collectCalls new, ev.dev = { d with Port := dialPort c d }
            ∧ ∃ co ∈ c.collectors, ∃ w cl, (co.collect w ev.dev cl).2.1 = ev.sent := by
  obtain ⟨new, h1, h2, h3, h4, h5⟩ :=
    connectAndCollect_frame W c d { s with world := (W.now s.world).1 }
  have hret : ∃ err, (connectAndCollect W c d { s with world := (W.now s.world).1 }).2.2
      = .ret err := by
    obtain ⟨r, hr⟩ := connect_ret W hW c d { s with world := (W.now s.world).1 }
    simp only [connectAndCollect, hr]
    cases r <;> exact ⟨_, rfl⟩
  obtain ⟨err, herr⟩ := hret
  refine ⟨err, new, herr, ?_, ?_, ?_, h3, ?_⟩
  · simp [collectForDevice, herr]
  · simp only [collectForDevice, herr]
    exact h1
  · simp only [collectForDevice, herr, h2, h5, scrapeDesc_names.1, scrapeDesc_names.2]
    cases err <;> simp
  · intro ev hev
    refine ⟨?_, (h4 ev hev).2⟩
    rw [(h4 ev hev).1, h5]

/-- C3: for every device and every state in which its unit of work starts
(whatever the other devices did before), `connectAndCollect` returns, with or
without an error, and `collectForDevice` then returns having added to the
channel what the collectors it invoked sent, followed by exactly one sample of
`mikrotik_scrape_collector_duration_seconds` (the time between its two
readings of the clock) and one sample of `mikrotik_scrape_collector_success`,
both with the name of the device as their only label; the success value is 1
when `connectAndCollect` returned no error and 0 otherwise.  And under every
schedule of the goroutines of a cycle, whatever the other devices do in
between, the process is not stopped and the channel receives an interleaving
of one sequence per device: what the collectors sent for it, then its
duration sample and its success sample, of value 0 or 1. -/
theorem collectForDevice_outcome (W : World σ) (hW : W.Terminated) (c : Collector σ)
    (d : Device) (s : St σ) :
    (∃ (err : Option Err) (new : List Event),
      (connectAndCollect W c d { s with world := (W.now s.world).1 }).2.2 = .ret err
        ∧ (collectForDevice W c d s).2 = .ret ()
        ∧ (collectForDevice W c d s).1.calls = s.calls ++ new
        ∧ (collectForDevice W c d s).1.ch = s.ch ++ (collectCalls new).flatMap (·.sent)
            ++ [⟨"mikrotik_scrape_collector_duration_seconds",
                  .seconds ((W.now (connectAndCollect W c d
                    { s with world := (W.now s.world).1 }).1.world).2 - (W.now s.world).2),
                  [d.Name]⟩,
                ⟨"mikrotik_scrape_collector_success", .const (if err = none then 1 else 0),
                  [d.Name]⟩])
      ∧ ∀ (sched : List Nat) (ds : List Device),
          ∃ (units : List (List Metric)) (new : List Metric),
            (fanOut W c sched ds s).2 = .ret ()
              ∧ (fanOut W c sched ds s).1.ch = s.ch ++ new
              ∧ Shuffle units new
              ∧ List.Forall₂ (fun dv u => ∃ (sent : List Metric) (ns : Int) (v : Nat),
                  u = sent
                    ++ [⟨"mikrotik_scrape_collector_duration_seconds", .seconds ns, [dv.Name]⟩,
                        ⟨"mikrotik_scrape_collector_success", .const v, [dv.Name]⟩]
                  ∧ v ≤ 1
                  ∧ ∀ m ∈ sent, ∃ co ∈ c.collectors, ∃ w cl,
                      m ∈ (co.collect w { dv with Port := dialPort c dv } cl).2.1)
                ds units := by
  obtain ⟨err, new, h1, h2, h3, h4, _⟩ := collectForDevice_shape W hW c d s
  refine ⟨⟨err, new, h1, h2, h3, h4⟩, ?_⟩
  intro sched ds
  have hall : List.Forall₂ (fun t R => t.Sends R) (ds.map (collectForDeviceW W c))
      (ds.map (UnitBlock c)) := by
    induction ds with
    | nil => exact List.Forall₂.nil
    | cons dv ds ih => exact List.Forall₂.cons (collectForDeviceW_sends W hW c dv) ih
  obtain ⟨units, out, i1, i2, i3, i4⟩ := interleave_sends sched hall s
  exact ⟨units, out, i1, i2, i3, List.forall₂_map_left_iff.mp i4⟩

theorem identityOf_fields (re : List Sentence) (d : Device) :
    (identityOf re d).Address = d.Address ∧ (identityOf re d).User = d.User
      ∧ (identityOf re d).Password = d.Password ∧ (identityOf re d).Port = d.Port
      ∧ (identityOf re d).Srv = d.Srv := by
  induction re generalizing d with
  | nil => simp [identityOf]
  | cons r rest ih =>
    have := ih { d with Name := mapGet r.Map "name" }
    simpa [identityOf] using this

/-- What `getIdentity` leaves: the channel untouched, the calls extended by
one dial attempt and requests, every field of the device but the name and the
defaulted port untouched. -/
theorem getIdentity_frame (W : World σ) (c : Collector σ) (d : Device) (s : St σ) :
    (getIdentity W c d s).1.ch = s.ch
      ∧ (getIdentity W c d s).2.1.Address = d.Address
      ∧ (getIdentity W c d s).2.1.User = d.User
      ∧ (getIdentity W c d s).2.1.Password = d.Password
      ∧ (getIdentity W c d s).2.1.Srv = d.Srv
      ∧ (getIdentity W c d s).2.1.Port = dialPort c d := by
  have hch := connect_ch W c d s
  have hdev := connect_dev W c d s
  simp only [getIdentity]
  cases hr : (connect W c d s).2.2 with
  | abort a => simp [hch, hdev]
  | ret r =>
    cases r with
    | error e => simp [hch, hdev]
    | ok cl =>
      simp only
      cases hq : (opRun W cl ["/system/identity/print"] (connect W c d s).1).2 with
      | error e => simp [opClose, opRun, hch, hdev]
      | ok reply =>
        obtain ⟨h1, h2, h3, h4, h5⟩ := identityOf_fields reply.Re (connect W c d s).2.1
        rw [hdev] at h1 h2 h3 h4 h5
        simp only [opClose, opRun, hch, hdev]
        exact ⟨trivial, h1, h2, h3, h5, h4⟩

theorem getIdentity_ret (W : World σ) (hW : W.Terminated) (c : Collector σ) (d : Device)
    (s : St σ) : ∃ r, (getIdentity W c d s).2.2 = .ret r := by
  obtain ⟨r, hr⟩ := connect_ret W hW c d s
  simp only [getIdentity, hr]
  cases r with
  | error e => exact ⟨_, rfl⟩
  | ok cl =>
    simp only
    cases (opRun W cl ["/system/identity/print"] (connect W c d s).1).2 <;> exact ⟨_, rfl⟩

theorem srvLoop_ch (W : World σ) (c : Collector σ) (dev : Device) (ks : List RR)
    (acc : List Device) (s : St σ) : (srvLoop W c dev ks acc s).1.ch = s.ch := by
  induction ks generalizing acc s with
  | nil => rfl
  | cons k ks ih =>
    cases k with
    | other t => simpa [srvLoop] using ih acc s
    | SRV target =>
      simp only [srvLoop]
      cases (getIdentity W c (srvDevice dev target) s).2.2 with
      | abort a => exact (getIdentity_frame W c _ s).1
      | ret r =>
        simp only
        rw [ih, (getIdentity_frame W c _ s).1]

theorem srvLoop_acc (W : World σ) (c : Collector σ) (dev : Device) (ks : List RR)
    (acc final : List Device) (s s1 : St σ)
    (h : srvLoop W c dev ks acc s = (s1, .ret final)) : ∃ rest, final = acc ++ rest := by
  induction ks generalizing acc s with
  | nil =>
    simp only [srvLoop, Prod.mk.injEq, Outcome.ret.injEq] at h
    exact ⟨[], by simp [h.2]⟩
  | cons k ks ih =>
    cases k with
    | other t => exact ih acc s (by simpa [srvLoop] using h)
    | SRV target =>
      simp only [srvLoop] at h
      cases hg : (getIdentity W c (srvDevice dev target) s).2.2 with
      | abort a => simp [hg] at h
      | ret r =>
        simp only [hg] at h
        obtain ⟨rest, hrest⟩ := ih _ _ h
        exact ⟨_ :: rest, by rw [hrest, List.append_assoc]; rfl⟩

/-- With replies always terminated, the loop over the answers returns: one
device per SRV record, in order, each the result of the identity query on the
device built from the target. -/
theorem srvLoop_built (W : World σ) (hW : W.Terminated) (c : Collector σ) (dev : Device)
    (ks : List RR) (acc : List Device) (s : St σ) :
    ∃ (s1 : St σ) (built : List Device),
      srvLoop W c dev ks acc s = (s1, .ret (acc ++ built))
        ∧ List.Forall₂ (fun t dv => ∃ si, dv = (getIdentity W c (srvDevice dev t) si).2.1)
            (srvTargets ks) built := by
  induction ks generalizing acc s with
  | nil => exact ⟨s, [], by simp [srvLoop], by simp [srvTargets]⟩
  | cons k ks ih =>
    cases k with
    | other t =>
      obtain ⟨s1, built, h1, h2⟩ := ih acc s
      exact ⟨s1, built, by simpa [srvLoop] using h1, by simpa [srvTargets] using h2⟩
    | SRV target =>
      obtain ⟨r, hr⟩ := getIdentity_ret W hW c (srvDevice dev target) s
      obtain ⟨s1, built, h1, h2⟩ :=
        ih (acc ++ [(getIdentity W c (srvDevice dev target) s).2.1])
          (getIdentity W c (srvDevice dev target) s).1
      refine ⟨s1, (getIdentity W c (srvDevice dev target) s).2.1 :: built, ?_, ?_⟩
      · simp only [srvLoop, hr]
        rw [h1]
        simp
      · simp only [srvTargets, List.filterMap_cons]
        exact List.Forall₂.cons ⟨s, rfl⟩ h2

theorem resolveSrv_ch (W : World σ) (c : Collector σ) (dev : Device) (acc : List Device)
    (s : St σ) : (resolveSrv W c dev acc s).1.ch = s.ch := by
  simp only [resolveSrv]
  cases (W.clientConfigFromFile s.world).2 with
  | none => rfl
  | some servers =>
    cases servers with
    | nil => rfl
    | cons first more =>
      simp only
      cases (opExchange W (W.fqdn dev.Srv.Record) (dnsServerOf dev first)
        { s with world := (W.clientConfigFromFile s.world).1 }).2 with
      | error e => rfl
      | ok answer => simp only; rw [srvLoop_ch]; rfl

theorem resolveSrv_acc (W : World σ) (c : Collector σ) (dev : Device) (acc final : List Device)
    (s s1 : St σ) (h : resolveSrv W c dev acc s = (s1, .ret final)) :
    ∃ rest, final = acc ++ rest := by
  simp only [resolveSrv] at h
  cases hc : (W.clientConfigFromFile s.world).2 with
  | none => simp [hc] at h
  | some servers =>
    cases servers with
    | nil => simp [hc] at h
    | cons first more =>
      simp only [hc] at h
      cases hq : (opExchange W (W.fqdn dev.Srv.Record) (dnsServerOf dev first)
        { s with world := (W.clientConfigFromFile s.world).1 }).2 with
      | error e => simp [hq] at h
      | ok answer =>
        simp only [hq] at h
        exact srvLoop_acc W c dev answer acc final _ s1 h

theorem resolve_ch (W : World σ) (c : Collector σ) (devs acc : List Device) (s : St σ) :
    (resolve W c devs acc s).1.ch = s.ch := by
  induction devs generalizing acc s with
  | nil => rfl
  | cons dev rest ih =>
    simp only [resolve]
    split
    · cases (resolveSrv W c dev acc s).2 with
      | abort a => exact resolveSrv_ch W c dev acc s
      | ret r => simp only; rw [ih, resolveSrv_ch]
    · exact ih _ _

theorem resolve_acc (W : World σ) (c : Collector σ) (devs acc final : List Device)
    (s s1 : St σ) (h : resolve W c devs acc s = (s1, .ret final)) :
    ∃ rest, final = acc ++ rest := by
  induction devs generalizing acc s with
  | nil =>
    simp only [resolve, Prod.mk.injEq, Outcome.ret.injEq] at h
    exact ⟨[], by simp [h.2]⟩
  | cons dev rest ih =>
    simp only [resolve] at h
    split at h
    · cases hr : (resolveSrv W c dev acc s).2 with
      | abort a => simp [hr] at h
      | ret r =>
        simp only [hr] at h
        obtain ⟨r1, h1⟩ := resolveSrv_acc W c dev acc r s (resolveSrv W c dev acc s).1
          (by rw [← hr])
        obtain ⟨r2, h2⟩ := ih _ _ h
        exact ⟨r1 ++ r2, by rw [h2, h1, List.append_assoc]⟩
    · obtain ⟨r2, h2⟩ := ih _ _ h
      exact ⟨dev :: r2, by simp [h2]⟩

theorem resolve_append (W : World σ) (c : Collector σ) (xs ys acc real : List Device)
    (s s1 : St σ) (h : resolve W c xs acc s = (s1, .ret real)) :
    resolve W c (xs ++ ys) acc s = resolve W c ys real s1 := by
  induction xs generalizing acc s with
  | nil =>
    simp only [resolve, Prod.mk.injEq, Outcome.ret.injEq] at h
    rw [← h.1, ← h.2]; rfl
  | cons dev rest ih =>
    simp only [resolve, List.cons_append] at h ⊢
    split
    · rename_i hsrv
      rw [if_pos hsrv] at h
      cases hr : (resolveSrv W c dev acc s).2 with
      | abort a => simp [hr] at h
      | ret r =>
        simp only [hr] at h ⊢
        exact ih _ _ h
    · rename_i hsrv
      rw [if_neg hsrv] at h
      exact ih _ _ h

theorem resolve_static (W : World σ) (c : Collector σ) (devs acc : List Device) (s : St σ)
    (h : ∀ d ∈ devs, d.Srv = {}) : resolve W c devs acc s = (s, .ret (acc ++ devs)) := by
  induction devs generalizing acc with
  | nil => simp [resolve]
  | cons dev rest ih =>
    have hd : dev.Srv = {} := h dev (List.mem_cons_self _ _)
    simp only [resolve, hd]
    rw [if_neg (by simp), ih _ (fun d hm => h d (List.mem_cons_of_mem _ hm))]
    simp

theorem forall₂_right_forall {α β : Type} {R : α → β → Prop} {P : β → Prop} {l₁ : List α}
    {l₂ : List β} (h : List.Forall₂ R l₁ l₂) (hP : ∀ a b, R a b → P b) : ∀ b ∈ l₂, P b := by
  induction h with
  | nil => simp
  | cons hab _ ih =>
    intro b hb
    rcases List.mem_cons.mp hb with rfl | hb
    · exact hP _ _ hab
    · exact ih b hb

theorem trimRight_dot (h : String) (hl : h.data.getLast? ≠ some '.') :
    trimRight (h ++ ".") "." = h := by
  have hd : (h ++ ".").data = h.data ++ ['.'] := rfl
  simp only [trimRight, hd, List.reverse_append, List.reverse_cons, List.reverse_nil,
    List.nil_append, List.singleton_append]
  have hdrop : List.dropWhile (fun ch => ".".data.contains ch) ('.' :: h.data.reverse)
      = h.data.reverse := by
    rw [List.dropWhile_cons_of_pos (by decide)]
    cases hr : h.data.reverse with
    | nil => rfl
    | cons x xs =>
      have hx : h.data.getLast? = some x := by
        rw [List.getLast?_eq_head?_reverse, hr]; rfl
      have hne : x ≠ '.' := by
        intro hx1; apply hl; rw [hx, hx1]
      rw [List.dropWhile_cons_of_neg]
      have : ".".data = ['.'] := rfl
      simp [this, hne]
  rw [hdrop]
  simp

/-- C5: when no configured entry has an SRV record, the resolution of `Collect`
returns the configured list itself, in every state and without touching the
state; the cycle then runs the goroutines of exactly these devices; the
collector after the cycle is the collector before it, so its device list is
unchanged and the next cycle resolves the same list again; and the port that
`connect` defaults is that of the copy it is given and returns, an entry with
an empty port keeping it in the list. -/
theorem resolve_passthrough (W : World σ) (c : Collector σ)
    (h : ∀ d ∈ c.devices, d.Srv = {}) (sched : List Nat) (s : St σ) :
    resolve W c c.devices [] s = (s, .ret c.devices)
      ∧ (Collect W c sched s).2 = fanOut W c sched c.devices s
      ∧ (Collect W c sched s).1 = c
      ∧ (Collect W c sched s).1.devices = c.devices
      ∧ resolve W (Collect W c sched s).1 (Collect W c sched s).1.devices []
            (Collect W c sched s).2.1 = ((Collect W c sched s).2.1, .ret c.devices)
      ∧ ∀ d ∈ c.devices, d.Port = "" → ∀ s1,
          (connect W c d s1).2.1 = { d with Port := if c.enableTLS then apiPortTLS else apiPort }
            ∧ (connect W c d s1).2.1 ≠ d := by
  have hres : ∀ s0, resolve W c c.devices [] s0 = (s0, .ret c.devices) := by
    intro s0
    have := resolve_static W c c.devices [] s0 h
    simpa using this
  have hc : (Collect W c sched s).1 = c := by
    simp only [Collect]
    cases (resolve W c c.devices [] s).2 <;> rfl
  refine ⟨hres s, ?_, hc, by rw [hc], ?_, ?_⟩
  · simp [Collect, hres s]
  · rw [hc]; exact hres _
  · intro d _ hp s1
    have hdev := connect_dev W c d s1
    have hport : dialPort c d = if c.enableTLS then apiPortTLS else apiPort := by
      simp [dialPort, hp]
    rw [hport] at hdev
    refine ⟨hdev, ?_⟩
    rw [hdev]
    intro heq
    have : (if c.enableTLS then apiPortTLS else apiPort) = d.Port := by
      rw [← heq]
    rw [hp] at this
    cases hb : c.enableTLS <;> simp [hb, apiPort, apiPortTLS] at this

/-- C6: for an entry `e` with an SRV record at any position of the list (after
`pre`, before `post`) whose query is answered, with replies always terminated:
the resolution continues with the list built so far extended by `built`, one
device per SRV record of the answer, in answer order, so that the resolved list
is the devices of `pre`, then `built`, then those of `post`, and `e` is not
among `built`.  The device built from the target `t` has name and address `t`
without trailing dots and the user and password of `e`; the device of `built`
is what the identity query returns for it, with the same address, user and
password.  A target that ends in exactly one dot loses that dot. -/
theorem resolve_srv_entry (W : World σ) (hW : W.Terminated) (c : Collector σ)
    (pre post real1 : List Device) (e : Device) (s s1 s2 : St σ) (w2 : σ)
    (first : String) (more : List String) (answer : List RR)
    (he : ({} : SrvRecord) ≠ e.Srv)
    (hpre : resolve W c pre [] s = (s1, .ret real1))
    (hconf : W.clientConfigFromFile s1.world = (w2, some (first :: more)))
    (hq : opExchange W (W.fqdn e.Srv.Record) (dnsServerOf e first) { s1 with world := w2 }
      = (s2, .ok answer)) :
    ∃ (s3 : St σ) (built : List Device),
      srvLoop W c e answer real1 s2 = (s3, .ret (real1 ++ built))
        ∧ resolve W c (pre ++ e :: post) [] s = resolve W c post (real1 ++ built) s3
        ∧ (∀ final s4, resolve W c (pre ++ e :: post) [] s = (s4, .ret final) →
            ∃ rest, final = real1 ++ built ++ rest)
        ∧ built.length = (srvTargets answer).length
        ∧ List.Forall₂ (fun t dv =>
              (∃ si, dv = (getIdentity W c (srvDevice e t) si).2.1)
                ∧ dv.Address = trimRight t "." ∧ dv.User = e.User ∧ dv.Password = e.Password)
            (srvTargets answer) built
        ∧ (∀ t, (srvDevice e t).Name = trimRight t "." ∧ (srvDevice e t).Address = trimRight t "."
            ∧ (srvDevice e t).User = e.User ∧ (srvDevice e t).Password = e.Password)
        ∧ e ∉ built
        ∧ ∀ host : String, host.data.getLast? ≠ some '.' → trimRight (host ++ ".") "." = host := by
  obtain ⟨s3, built, hloop, hall⟩ := srvLoop_built W hW c e answer real1 s2
  have hentry : resolve W c (e :: post) real1 s1 = resolve W c post (real1 ++ built) s3 := by
    simp only [resolve]
    rw [if_pos he]
    simp [resolveSrv, hconf, hq, hloop]
  have hfull : resolve W c (pre ++ e :: post) [] s = resolve W c post (real1 ++ built) s3 := by
    rw [resolve_append W c pre (e :: post) [] real1 s s1 hpre, hentry]
  have hall2 : List.Forall₂ (fun t dv =>
      (∃ si, dv = (getIdentity W c (srvDevice e t) si).2.1)
        ∧ dv.Address = trimRight t "." ∧ dv.User = e.User ∧ dv.Password = e.Password)
      (srvTargets answer) built := by
    refine List.Forall₂.imp ?_ hall
    rintro t dv ⟨si, rfl⟩
    obtain ⟨_, h2, h3, h4, _, _⟩ := getIdentity_frame W c (srvDevice e t) si
    exact ⟨⟨si, rfl⟩, h2, h3, h4⟩
  refine ⟨s3, built, hloop, hfull, ?_, hall.length_eq.symm, hall2, fun t => ⟨rfl, rfl, rfl, rfl⟩,
    ?_, trimRight_dot⟩
  · intro final s4 hfin
    rw [hfull] at hfin
    exact resolve_acc W c post (real1 ++ built) final s3 s4 hfin
  · intro hmem
    have hsrv : ∀ dv ∈ built, dv.Srv = {} := by
      refine forall₂_right_forall hall ?_
      rintro t dv ⟨si, rfl⟩
      exact (getIdentity_frame W c (srvDevice e t) si).2.2.2.2.1
    exact he (hsrv e hmem).symm

theorem getLast?_append_singleton {α : Type} (xs : List α) (a : α) :
    (xs ++ [a]).getLast? = some a := by
  simp

/-- The calls of `connectAndCollect`: one dial attempt, and a returned session
closed once, by the last call. -/
theorem connectAndCollect_calls (W : World σ) (c : Collector σ) (d : Device) (s : St σ) :
    ∃ (new : List Event) (oc : Option Nat),
      (connectAndCollect W c d s).1.calls = s.calls ++ new
        ∧ dialAttempts new = [oc]
        ∧ ∀ cl, (connect W c d s).2.2 = .ret (.ok cl) →
            oc = some cl.rwc ∧ closed new = [cl.rwc] ∧ new.getLast? = some (.close cl.rwc) := by
  obtain ⟨oc, sents, hcalls, hoc⟩ := connect_calls W c d s
  simp only [connectAndCollect]
  cases hr : (connect W c d s).2.2 with
  | abort a =>
    exact ⟨_, oc, hcalls, by simp [dialAttempts, dialAttempts_run], by simp⟩
  | ret r =>
    cases r with
    | error e =>
      exact ⟨_, oc, hcalls, by simp [dialAttempts, dialAttempts_run], by simp⟩
    | ok cl =>
      obtain ⟨evs, h1, _, _⟩ :=
        collectLoop_run c.collectors 0 (connect W c d s).2.1 cl (connect W c d s).1
      refine ⟨.dial (d.Address ++ ":" ++ dialPort c d) oc :: sents.map (Event.run (oc.getD 0))
          ++ evs.map Event.collect ++ [.close cl.rwc], oc, ?_, ?_, ?_⟩
      · simp [opClose, h1, hcalls]
      · rw [dialAttempts_append, dialAttempts_append]
        simp [dialAttempts_collect]
        simp [dialAttempts, dialAttempts_run]
      · intro cl1 hcl1
        simp only [Outcome.ret.injEq, Except.ok.injEq] at hcl1
        subst hcl1
        refine ⟨hoc cl hr, ?_, getLast?_append_singleton _ _⟩
        rw [closed_append, closed_append]
        simp [closed_collect]
        simp [closed, closed_run]

/-- The calls of `getIdentity`: one dial attempt, and a returned session closed
once, by the last call. -/
theorem getIdentity_calls (W : World σ) (c : Collector σ) (d : Device) (s : St σ) :
    ∃ (new : List Event) (oc : Option Nat),
      (getIdentity W c d s).1.calls = s.calls ++ new
        ∧ dialAttempts new = [oc]
        ∧ ∀ cl, (connect W c d s).2.2 = .ret (.ok cl) →
            oc = some cl.rwc ∧ closed new = [cl.rwc] ∧ new.getLast? = some (.close cl.rwc) := by
  obtain ⟨oc, sents, hcalls, hoc⟩ := connect_calls W c d s
  simp only [getIdentity]
  cases hr : (connect W c d s).2.2 with
  | abort a =>
    exact ⟨_, oc, hcalls, by simp [dialAttempts, dialAttempts_run], by simp⟩
  | ret r =>
    cases r with
    | error e =>
      exact ⟨_, oc, hcalls, by simp [dialAttempts, dialAttempts_run], by simp⟩
    | ok cl =>
      have hshape : ∀ x : St σ × Device × Outcome (Option Err),
          x.1 = opClose W cl (opRun W cl ["/system/identity/print"] (connect W c d s).1).1 →
          ∃ (new : List Event) (oc : Option Nat), x.1.calls = s.calls ++ new
            ∧ dialAttempts new = [oc]
            ∧ ∀ cl1, (Outcome.ret (Except.ok cl) : Outcome (Except Err Client))
                = Outcome.ret (Except.ok cl1) →
              oc = some cl1.rwc ∧ closed new = [cl1.rwc]
                ∧ new.getLast? = some (.close cl1.rwc) := by
        intro x hx
        refine ⟨.dial (d.Address ++ ":" ++ dialPort c d) oc :: sents.map (Event.run (oc.getD 0))
            ++ [.run cl.rwc ["/system/identity/print"]] ++ [.close cl.rwc], oc, ?_, ?_, ?_⟩
        · rw [hx]; simp [opClose, opRun, hcalls]
        · rw [dialAttempts_append, dialAttempts_append]
          simp [dialAttempts, dialAttempts_run]
        · intro cl1 hcl1
          simp only [Outcome.ret.injEq, Except.ok.injEq] at hcl1
          subst hcl1
          refine ⟨hoc cl hr, ?_, getLast?_append_singleton _ _⟩
          rw [closed_append, closed_append]
          simp [closed, closed_run]
      simp only
      cases (opRun W cl ["/system/identity/print"] (connect W c d s).1).2 with
      | error e => exact hshape _ rfl
      | ok reply => exact hshape _ rfl

theorem collectForDevice_calls (W : World σ) (c : Collector σ) (d : Device) (s : St σ) :
    (collectForDevice W c d s).1.calls
      = (connectAndCollect W c d { s with world := (W.now s.world).1 }).1.calls := by
  simp only [collectForDevice]
  cases (connectAndCollect W c d { s with world := (W.now s.world).1 }).2.2 <;> rfl

/-- C8, as the code has it: the unit of work of a device makes exactly one dial
attempt, so it opens at most one session, and so does the identity query of
the resolution; when `connect` returns a session, the connection dialled is
that of the session and it is closed exactly once, by the last call made
before the unit of work (or the identity query) returns, whether the
collectors succeed or one of them fails. -/
theorem session_closed (W : World σ) (c : Collector σ) (d : Device) (s : St σ) :
    (∃ (new : List Event) (oc : Option Nat),
        (collectForDevice W c d s).1.calls = s.calls ++ new
          ∧ dialAttempts new = [oc]
          ∧ ∀ cl, (connect W c d { s with world := (W.now s.world).1 }).2.2 = .ret (.ok cl) →
              oc = some cl.rwc ∧ closed new = [cl.rwc]
                ∧ new.getLast? = some (.close cl.rwc))
      ∧ ∃ (new : List Event) (oc : Option Nat),
        (getIdentity W c d s).1.calls = s.calls ++ new
          ∧ dialAttempts new = [oc]
          ∧ ∀ cl, (connect W c d s).2.2 = .ret (.ok cl) →
              oc = some cl.rwc ∧ closed new = [cl.rwc]
                ∧ new.getLast? = some (.close cl.rwc) := by
  refine ⟨?_, getIdentity_calls W c d s⟩
  rw [collectForDevice_calls]
  exact connectAndCollect_calls W c d { s with world := (W.now s.world).1 }

/-- C10: when the resolution reaches an entry `e` with an SRV record (the
entries before it resolved, the resolver configuration read with a first
server) and the query for `e` returns an error, `Collect` ends the process with
exit status 1 in the state the failed query leaves: no unit of work has run,
for no device of the list, and the channel is as it was before the cycle. -/
theorem srv_failure_exits (W : World σ) (c : Collector σ) (pre post real1 : List Device)
    (e : Device) (s s1 s2 : St σ) (w2 : σ) (first : String) (more : List String) (err : Err)
    (sched : List Nat)
    (hdev : c.devices = pre ++ e :: post)
    (he : ({} : SrvRecord) ≠ e.Srv)
    (hpre : resolve W c pre [] s = (s1, .ret real1))
    (hconf : W.clientConfigFromFile s1.world = (w2, some (first :: more)))
    (hq : opExchange W (W.fqdn e.Srv.Record) (dnsServerOf e first) { s1 with world := w2 }
      = (s2, .error err)) :
    Collect W c sched s = (c, s2, .abort (.exit 1))
      ∧ s2.ch = s.ch
      ∧ (Collect W c sched s).2.1.ch = s.ch
      ∧ s2.calls = s1.calls ++ [.query (W.fqdn e.Srv.Record) (dnsServerOf e first)] := by
  have hentry : resolve W c (e :: post) real1 s1 = (s2, .abort (.exit 1)) := by
    simp only [resolve]
    rw [if_pos he]
    simp [resolveSrv, hconf, hq]
  have hfull : resolve W c c.devices [] s = (s2, .abort (.exit 1)) := by
    rw [hdev, resolve_append W c pre (e :: post) [] real1 s s1 hpre, hentry]
  have hC : Collect W c sched s = (c, s2, .abort (.exit 1)) := by
    simp [Collect, hfull]
  have hs1 : s1.ch = s.ch := by
    have := resolve_ch W c pre [] s
    rw [hpre] at this
    exact this
  have hs2 : s2 = (opExchange W (W.fqdn e.Srv.Record) (dnsServerOf e first)
      { s1 with world := w2 }).1 := by rw [hq]
  have hch : s2.ch = s.ch := by rw [hs2]; exact hs1
  refine ⟨hC, hch, by rw [hC]; exact hch, ?_⟩
  rw [hs2]; rfl

end Lemmas

/-! ## The sample world: instances and counterexamples -/

/-- Every reply of the sample world has its terminal sentence. -/
theorem sampleWorld_terminated (conf : Option (List String)) : (sampleWorld conf).Terminated := by
  intro w conn sentence reply h
  simp only [sampleWorld, sampleRun] at h
  split_ifs at h <;> simp at h <;> subst h <;> simp

/-- The two-stage login of `old.lan`: the challenge `aabbcc` is answered by one
second request, whose response is `00a8be8437325a4686bfec4ddab52adcf0`, and the
client is returned.  Beside it, the one-stage login of `r1.lan` and the
challenge of `odd.lan` that does not decode: one request each. -/
theorem connect_handshake_witness :
    (connect W0 (sampleCollector [] []) sampleOld start).2.2 = .ret (.ok ⟨0⟩)
      ∧ (connect W0 (sampleCollector [] []) sampleOld start).1.calls
        = [.dial "old.lan:8728" (some 0),
           .run 0 ["/login", "=name=admin", "=password=pass"],
           .run 0 ["/login", "=name=admin", "=response=00a8be8437325a4686bfec4ddab52adcf0"]]
      ∧ loginRequests (connect W0 (sampleCollector [] []) sampleOld start).1.calls
        = [["/login", "=name=admin", "=password=pass"],
           ["/login", "=name=admin", "=response=00a8be8437325a4686bfec4ddab52adcf0"]]
      ∧ (connect W0 (sampleCollector [] []) sampleR1 start).1.calls
        = [.dial "r1.lan:8728" (some 0), .run 0 ["/login", "=name=admin", "=password=pass"]]
      ∧ (connect W0 (sampleCollector [] []) sampleR1 start).2.2 = .ret (.ok ⟨0⟩)
      ∧ (connect W0 (sampleCollector [] []) sampleOdd start).1.calls
        = [.dial "odd.lan:8728" (some 0), .run 0 ["/login", "=name=admin", "=password=pass"]]
      ∧ (connect W0 (sampleCollector [] []) sampleOdd start).2.2
        = .ret (.error (.invalidRet (.invalidByte 120))) := by
  have h := (connect_handshake W0 (sampleCollector [] []) sampleOld
    { sampleOld with Port := "8728" } start
    ⟨["old.lan:8728"], [], [.dial "old.lan:8728" (some 0)]⟩
    ⟨["old.lan:8728"], [], [.dial "old.lan:8728" (some 0)]⟩
    ⟨["old.lan:8728"], [],
      [.dial "old.lan:8728" (some 0), .run 0 ["/login", "=name=admin", "=password=pass"]]⟩
    0 ⟨0⟩ { Done := some ⟨[("ret", "aabbcc")]⟩ } ⟨[("ret", "aabbcc")]⟩
    (by decide) (by decide) (by decide) rfl).2.1 "aabbcc" [0xAA, 0xBB, 0xCC] (by decide) (by decide)
  exact ⟨h.2.2.2.1.mpr ⟨{ Done := some ⟨[]⟩ }, by decide⟩, by decide, by decide, by decide,
    by decide, by decide, by decide⟩

/-- The unit of work of a device that refuses the connection emits its two
samples with success 0.  Run with a reachable device, one goroutine after the
other or with their actions interleaved, each device gets its own pair and the
reachable one keeps its collector sample. -/
theorem collectForDevice_outcome_witness :
    W0.Terminated
      ∧ (∃ (err : Option Err) (new : List Event),
          (connectAndCollect W0 (sampleCollector [] [routeCollector W0]) sampleDown
              { start with world := (W0.now start.world).1 }).2.2 = .ret err
            ∧ (collectForDevice W0 (sampleCollector [] [routeCollector W0]) sampleDown start).2
                = .ret ()
            ∧ (collectForDevice W0 (sampleCollector [] [routeCollector W0]) sampleDown start).1.calls
                = start.calls ++ new
            ∧ (collectForDevice W0 (sampleCollector [] [routeCollector W0]) sampleDown start).1.ch
                = start.ch ++ (collectCalls new).flatMap (·.sent)
                  ++ [⟨"mikrotik_scrape_collector_duration_seconds",
                        .seconds ((W0.now (connectAndCollect W0
                          (sampleCollector [] [routeCollector W0]) sampleDown
                          { start with world := (W0.now start.world).1 }).1.world).2
                          - (W0.now start.world).2),
                        [sampleDown.Name]⟩,
                      ⟨"mikrotik_scrape_collector_success", .const (if err = none then 1 else 0),
                        [sampleDown.Name]⟩])
      ∧ (collectForDevice W0 (sampleCollector [] [routeCollector W0]) sampleDown start).1.ch
          = [⟨"mikrotik_scrape_collector_duration_seconds", .seconds 0, ["down"]⟩,
             ⟨"mikrotik_scrape_collector_success", .const 0, ["down"]⟩]
      ∧ (collectForDevice W0 (sampleCollector [] [routeCollector W0]) sampleR1 start).1.ch
          = [⟨"mikrotik_route_metrics", .const 0, ["r1", "0.0.0.0/0", "10.0.0.1", "1", ""]⟩,
             ⟨"mikrotik_scrape_collector_duration_seconds", .seconds 1000, ["r1"]⟩,
             ⟨"mikrotik_scrape_collector_success", .const 1, ["r1"]⟩]
      ∧ (fanOut W0 (sampleCollector [] [routeCollector W0]) [] [sampleR1, sampleDown] start).1.ch
          = [⟨"mikrotik_route_metrics", .const 0, ["r1", "0.0.0.0/0", "10.0.0.1", "1", ""]⟩,
             ⟨"mikrotik_scrape_collector_duration_seconds", .seconds 1000, ["r1"]⟩,
             ⟨"mikrotik_scrape_collector_success", .const 1, ["r1"]⟩,
             ⟨"mikrotik_scrape_collector_duration_seconds", .seconds 0, ["down"]⟩,
             ⟨"mikrotik_scrape_collector_success", .const 0, ["down"]⟩]
      ∧ (fanOut W0 (sampleCollector [] [routeCollector W0])
          [1, 0, 0, 1, 0, 0, 1, 0, 1, 0, 1, 0, 1, 1, 1] [sampleR1, sampleDown] start).1.ch
          = [⟨"mikrotik_scrape_collector_duration_seconds", .seconds 1000, ["down"]⟩,
             ⟨"mikrotik_route_metrics", .const 0, ["r1", "0.0.0.0/0", "10.0.0.1", "1", ""]⟩,
             ⟨"mikrotik_scrape_collector_success", .const 0, ["down"]⟩,
             ⟨"mikrotik_scrape_collector_duration_seconds", .seconds 1000, ["r1"]⟩,
             ⟨"mikrotik_scrape_collector_success", .const 1, ["r1"]⟩] :=
  ⟨sampleWorld_terminated _,
    (collectForDevice_outcome W0 (sampleWorld_terminated _)
      (sampleCollector [] [routeCollector W0]) sampleDown start).1,
    by decide, by decide, by decide, by decide⟩

/-- A pipeline whose second collector fails on `old.lan`: the first two are
invoked, the third is not, the samples of both stay, the error is returned. -/
theorem connectAndCollect_pipeline_witness :
    (∃ (evs : List CollectCall) (err : Option Err),
        (connectAndCollect W0
            (sampleCollector [] [routeCollector W0, failingCollector, routeCollector W0])
            sampleOld start).2.2 = .ret err
          ∧ (connectAndCollect W0
              (sampleCollector [] [routeCollector W0, failingCollector, routeCollector W0])
              sampleOld start).1.calls
              = [.dial "old.lan:8728" (some 0),
                  .run 0 ["/login", "=name=admin", "=password=pass"],
                  .run 0 ["/login", "=name=admin",
                    "=response=00a8be8437325a4686bfec4ddab52adcf0"]]
                ++ evs.map Event.collect ++ [.close 0]
          ∧ (connectAndCollect W0
              (sampleCollector [] [routeCollector W0, failingCollector, routeCollector W0])
              sampleOld start).1.ch = [] ++ evs.flatMap (·.sent)
          ∧ LoopRun [routeCollector W0, failingCollector, routeCollector W0] 0
              { sampleOld with Port := "8728" } ⟨0⟩ err evs)
      ∧ (connectAndCollect W0
          (sampleCollector [] [routeCollector W0, failingCollector, routeCollector W0])
          sampleOld start).2.2 = .ret (some (.ext "query failed"))
      ∧ (collectCalls (connectAndCollect W0
          (sampleCollector [] [routeCollector W0, failingCollector, routeCollector W0])
          sampleOld start).1.calls).map (·.idx) = [0, 1]
      ∧ (connectAndCollect W0
          (sampleCollector [] [routeCollector W0, failingCollector, routeCollector W0])
          sampleOld start).1.ch
          = [⟨routeDescription, .const 0, ["old", "0.0.0.0/0", "10.0.0.1", "1", ""]⟩,
             ⟨"mikrotik_sample", .const 7, ["old"]⟩] :=
  ⟨connectAndCollect_pipeline W0
      (sampleCollector [] [routeCollector W0, failingCollector, routeCollector W0])
      sampleOld { sampleOld with Port := "8728" } start
      ⟨["old.lan:8728"], [],
        [.dial "old.lan:8728" (some 0),
          .run 0 ["/login", "=name=admin", "=password=pass"],
          .run 0 ["/login", "=name=admin", "=response=00a8be8437325a4686bfec4ddab52adcf0"]]⟩
      ⟨0⟩ (by decide),
    by decide, by decide, by decide⟩

/-- Two static devices resolve to themselves; the port defaulted by `connect`
is not written back. -/
theorem resolve_passthrough_witness :
    (∀ d ∈ (sampleCollector [sampleR1, sampleDown] [routeCollector W0]).devices, d.Srv = {})
      ∧ resolve W0 (sampleCollector [sampleR1, sampleDown] [routeCollector W0])
          [sampleR1, sampleDown] [] start = (start, .ret [sampleR1, sampleDown])
      ∧ (Collect W0 (sampleCollector [sampleR1, sampleDown] [routeCollector W0]) [] start).1.devices
          = [sampleR1, sampleDown]
      ∧ (connect W0 (sampleCollector [sampleR1, sampleDown] [routeCollector W0]) sampleR1
          start).2.1 ≠ sampleR1 :=
  have h := resolve_passthrough W0 (sampleCollector [sampleR1, sampleDown] [routeCollector W0])
    (by decide) [] start
  ⟨by decide, h.1, h.2.2.2.1, (h.2.2.2.2.2 sampleR1 (by decide) rfl start).2⟩

/-- An SRV entry between two static devices: its two SRV answers take its
place in the resolved list. -/
theorem resolve_srv_entry_witness :
    (∃ (s3 : St (List String)) (built : List Device),
        resolve W0 (sampleCollector [] []) ([sampleR1] ++ sampleSrv :: [sampleOld]) [] start
            = resolve W0 (sampleCollector [] []) [sampleOld] ([sampleR1] ++ built) s3
          ∧ built.length = 2
          ∧ sampleSrv ∉ built)
      ∧ (resolve W0 (sampleCollector [] []) [sampleR1, sampleSrv, sampleOld] [] start).2
          = .ret [sampleR1,
              { Name := "core-router", Address := "r1.lan", User := "admin", Password := "pass",
                Port := "8728" },
              { Name := "old.lan", Address := "old.lan", User := "admin", Password := "pass",
                Port := "8728" },
              sampleOld] := by
  obtain ⟨s3, built, _, h2, _, h4, _, _, h7, _⟩ :=
    resolve_srv_entry W0 (sampleWorld_terminated _) (sampleCollector [] []) [sampleR1] [sampleOld]
      [sampleR1] sampleSrv start start ⟨[], [], [.query "_api._tcp.lan." "10.0.0.53:53"]⟩ []
      "10.0.0.53" [] [.SRV "r1.lan.", .other 5, .SRV "old.lan."]
      (by decide) (by decide) (by decide) (by decide)
  exact ⟨⟨s3, built, h2, h4, h7⟩, by decide⟩

/-- Three units of work against the claim of exactly one session, always
closed.  A device that rejects the login: its connection is dialled and never
closed when the unit returns.  A device found by SRV discovery: the cycle
opens two connections to it, one for the identity query and one for the unit
of work.  A device that refuses the connection: no session at all. -/
theorem session_counterexample :
    ((collectForDevice W0 (sampleCollector [] [routeCollector W0]) sampleBad start).2 = .ret ()
        ∧ dialAttempts (collectForDevice W0 (sampleCollector [] [routeCollector W0]) sampleBad
            start).1.calls = [some 0]
        ∧ closed (collectForDevice W0 (sampleCollector [] [routeCollector W0]) sampleBad
            start).1.calls = [])
      ∧ ((Collect W0 (sampleCollector [sampleSrv] [routeCollector W0]) [] start).2.2 = .ret ()
        ∧ (Collect W0 (sampleCollector [sampleSrv] [routeCollector W0]) [] start).2.1.world
            = ["r1.lan:8728", "old.lan:8728", "r1.lan:8728", "old.lan:8728"]
        ∧ dialAttempts (Collect W0 (sampleCollector [sampleSrv] [routeCollector W0]) []
            start).2.1.calls = [some 0, some 1, some 2, some 3])
      ∧ dialAttempts (collectForDevice W0 (sampleCollector [] [routeCollector W0]) sampleDown
          start).1.calls = [none] := by
  decide

/-- C9 on the code: with the resolver configuration unreadable, or readable
with no server, the resolution of an entry that configures its own resolver
panics before any query is sent; with a readable configuration the query goes
to the configured resolver, and without a configured resolver to the first
system server on port 53. -/
theorem custom_resolver_needs_system_configuration :
    resolveSrv (sampleWorld none) (sampleCollector [] []) sampleSrvCustom [] start
        = (start, .abort .panic)
      ∧ resolveSrv (sampleWorld (some [])) (sampleCollector [] []) sampleSrvCustom [] start
        = (start, .abort .panic)
      ∧ (Collect (sampleWorld none) (sampleCollector [sampleSrvCustom] []) [] start).2
        = (start, .abort .panic)
      ∧ (resolveSrv W0 (sampleCollector [] []) sampleSrvCustom [] start).1.calls.head?
        = some (.query "_api._tcp.lan." "10.0.0.1:5353")
      ∧ (resolveSrv W0 (sampleCollector [] []) sampleSrv [] start).1.calls.head?
        = some (.query "_api._tcp.lan." "10.0.0.53:53") := by
  decide

/-- A failing SRV query between two static devices: exit status 1 and an empty
channel. -/
theorem srv_failure_exits_witness :
    Collect W0 (sampleCollector [sampleR1, sampleGone, sampleOld] [routeCollector W0]) [] start
        = (sampleCollector [sampleR1, sampleGone, sampleOld] [routeCollector W0],
            ⟨[], [], [.query "_gone._tcp.lan." "10.0.0.53:53"]⟩, .abort (.exit 1))
      ∧ (Collect W0 (sampleCollector [sampleR1, sampleGone, sampleOld] [routeCollector W0]) []
          start).2.1.ch = [] :=
  have h := srv_failure_exits W0
    (sampleCollector [sampleR1, sampleGone, sampleOld] [routeCollector W0])
    [sampleR1] [sampleOld] [sampleR1] sampleGone start start
    ⟨[], [], [.query "_gone._tcp.lan." "10.0.0.53:53"]⟩ [] "10.0.0.53" [] (.ext "i/o timeout") []
    rfl (by decide) (by decide) (by decide) (by decide)
  ⟨h.1, h.2.2.1⟩

end Mikrotik
